import Mathlib

/-!
Verification development for the agentic accounting workflow
(`agents/validation_agent.py`, `agents/posting_engine_agent.py`,
`agents/reconciliation_agent.py`, `agents/main.py`).

The pandas DataFrames of the source are modelled as Lean lists of typed
records; monetary amounts are exact rationals (`ℚ`); the external AI
oracles (explanation, fuzzy matching) are explicit function parameters,
as are the date-parsing routines (`pd.to_datetime` results are modelled
as `Option` values).
-/

/-! ## Journal-entry id rendering

The source renders ids as `f"JE-{counter:04d}"`.  `natStr` renders a
natural number in decimal (as Python `"%d"` does) and `pad4chars` adds
the `04d` zero padding. -/

/-- Digit characters of `n`, most significant first (`fuel` bounds the
recursion depth; any `fuel ≥ n` yields all digits). -/
def natStrAux : ℕ → ℕ → List Char
  | 0, _ => []
  | fuel + 1, n =>
    if n = 0 then [] else natStrAux fuel (n / 10) ++ [Nat.digitChar (n % 10)]

/-- Decimal rendering of a natural number (as Python `"%d"` does). -/
def natStr (n : ℕ) : String :=
  if n = 0 then "0" else ⟨natStrAux n n⟩

/-- The character list of `"%04d" % n`: zero padding to width 4. -/
def pad4chars (n : ℕ) : List Char :=
  (if n < 10 then ['0', '0', '0']
   else if n < 100 then ['0', '0']
   else if n < 1000 then ['0']
   else []) ++ (natStr n).data

/-- `f"JE-{n:04d}"` from `generate_journal_entry` /
`generate_payment_entry`. -/
def jeIdStr (n : ℕ) : String := ⟨'J' :: 'E' :: '-' :: pad4chars n⟩

/-- Decimal decoding of a character list (inverse of the rendering,
used only to prove injectivity of `jeIdStr`). -/
def decodeChars (l : List Char) : ℕ :=
  l.foldl (fun a c => 10 * a + (c.toNat - 48)) 0

lemma digitChar_decode {d : ℕ} (hd : d < 10) :
    (Nat.digitChar d).toNat - 48 = d := by
  interval_cases d <;> rfl

lemma decode_aux (fuel : ℕ) : ∀ n a : ℕ, n ≤ fuel →
    (natStrAux fuel n).foldl (fun b c => 10 * b + (c.toNat - 48)) a
      = a * 10 ^ (natStrAux fuel n).length + n := by
  induction fuel with
  | zero =>
    intro n a hn
    interval_cases n
    simp [natStrAux]
  | succ fuel ih =>
    intro n a hn
    by_cases h0 : n = 0
    · subst h0; simp [natStrAux]
    · have hpos : 0 < n := Nat.pos_of_ne_zero h0
      have hdiv : n / 10 ≤ fuel := by
        have h1 : n / 10 < n := Nat.div_lt_self hpos (by norm_num)
        omega
      have hmod : n % 10 < 10 := Nat.mod_lt n (by norm_num)
      simp only [natStrAux, if_neg h0, List.foldl_append, List.foldl_cons,
        List.foldl_nil, List.length_append, List.length_cons, List.length_nil,
        ih (n / 10) a hdiv, digitChar_decode hmod]
      have : 10 * (a * 10 ^ (natStrAux fuel (n / 10)).length + n / 10) + n % 10
          = a * 10 ^ ((natStrAux fuel (n / 10)).length + (0 + 1)) + (10 * (n / 10) + n % 10) := by
        ring
      rw [this, Nat.div_add_mod]

lemma decode_natStr (n : ℕ) : decodeChars (natStr n).data = n := by
  by_cases h0 : n = 0
  · subst h0; rfl
  · unfold natStr decodeChars
    rw [if_neg h0]
    show (natStrAux n n).foldl (fun b c => 10 * b + (c.toNat - 48)) 0 = n
    rw [decode_aux n n 0 le_rfl]
    simp

lemma decode_pad4chars (n : ℕ) : decodeChars (pad4chars n) = n := by
  have hz : ∀ (zs : List Char), (∀ c ∈ zs, c = '0') →
      ∀ l, decodeChars (zs ++ l) = decodeChars l := by
    intro zs hzs l
    unfold decodeChars
    rw [List.foldl_append]
    congr 1
    induction zs with
    | nil => rfl
    | cons c t ih =>
      have hc : c = '0' := hzs c (List.mem_cons_self c t)
      have ht : ∀ x ∈ t, x = '0' := fun x hx => hzs x (List.mem_cons_of_mem c hx)
      subst hc
      simpa using ih ht
  unfold pad4chars
  split
  · rw [hz ['0', '0', '0'] (by intro c hc; simp_all) _, decode_natStr]
  · split
    · rw [hz ['0', '0'] (by intro c hc; simp_all) _, decode_natStr]
    · split
      · rw [hz ['0'] (by intro c hc; simp_all) _, decode_natStr]
      · rw [show ([] : List Char) ++ (natStr n).data = (natStr n).data from rfl,
          decode_natStr]

lemma jeIdStr_injective : Function.Injective jeIdStr := by
  intro a b h
  have hdata : ('J' :: 'E' :: '-' :: pad4chars a) = ('J' :: 'E' :: '-' :: pad4chars b) :=
    congrArg String.data h
  have hpad : pad4chars a = pad4chars b := by
    injection hdata with _ h1
    injection h1 with _ h2
    injection h2
  calc a = decodeChars (pad4chars a) := (decode_pad4chars a).symm
    _ = decodeChars (pad4chars b) := by rw [hpad]
    _ = b := decode_pad4chars b

/-! ## Data model

Typed records for the rows of the pandas tables.  Dates that the source
keeps as strings stay strings; dates the source obtains from
`pd.to_datetime(..., errors='coerce')` are modelled as `Option` values
(`none` = `NaT`). -/

/-- A `Documents` row (columns used by the core agents). -/
structure Doc where
  id : String
  doc_type : String
  doc_number : String
  vendor_customer_id : String
  counterparty_type : String
  issue_date : String
  due_date : String
  currency : String
  tax_label : String
  tax_amount : Option ℚ      -- `NaN` modelled as `none` (`pd.isna` check)
  shipping : ℚ
  total : ℚ
  fx_rate : ℚ
  base_amount_total : ℚ
  status : String
  deriving Repr, DecidableEq

/-- A `LineItems` row. -/
structure LineItem where
  document_id : String
  line_no : ℕ
  description : String
  line_total : ℚ
  gl_hint : String
  deriving Repr, DecidableEq

/-- A `JournalEntries` row. -/
structure JE where
  je_id : String
  date : String
  doc_id : String
  line_no : ℕ
  account : String
  debit : ℚ
  credit : ℚ
  memo : String
  fx_rate : ℚ
  base_amount : ℚ
  deriving Repr, DecidableEq

/-- An `AP` / `AR` subledger row. -/
structure APRow where
  doc_id : String
  counterparty_id : String
  total : ℚ
  amount_due : ℚ
  due_date : String
  status : String
  deriving Repr, DecidableEq

/-- The stored date of an `FXRates` row: either still the raw CSV string
or already coerced by `pd.to_datetime(..., format='%d/%m/%Y',
errors='coerce')` (day codes as `Option ℤ`, `none` = `NaT`). -/
inductive FXDate where
  | raw (s : String)
  | parsed (d : Option ℤ)
  deriving Repr, DecidableEq

/-- An `FXRates` row. -/
structure FXRow where
  pair : String
  date : FXDate
  rate : ℚ
  deriving Repr, DecidableEq

/-- A `BankFeed` row after the loop's own coercions: `date` is the
`pd.to_datetime(..., errors='coerce')` result (kept as the formatted
string, `none` = `NaT`), `guess_doc_number` already stripped. -/
structure BankTxn where
  date : Option String
  amount : ℚ
  memo : String
  guess_doc_number : String
  deriving Repr, DecidableEq

/-- An `AuditLog` row (the wall-clock timestamp column is outside the
embedding). -/
structure AuditRow where
  actor : String
  action : String
  doc_id : String
  details : String
  deriving Repr, DecidableEq

/-- The dictionary of DataFrames (`self.dfs`). -/
structure Store where
  Documents : List Doc
  LineItems : List LineItem
  JournalEntries : List JE
  AP : List APRow
  AR : List APRow
  FXRates : List FXRow
  BankFeed : List BankTxn
  AuditLog : List AuditRow
  deriving Repr, DecidableEq

/-! ## PostingEngineAgent (`agents/posting_engine_agent.py`) -/

/-- `line['gl_hint'].split(' ')[0]`. -/
def glAccount (hint : String) : String := (hint.splitOn " ").headD ""

/-- `PostingEngineAgent.generate_journal_entry`: bumps the counter and
builds the row (the `pd.to_datetime(date).strftime('%Y-%m-%d')`
normalisation is the identity on the date strings considered here). -/
def generate_journal_entry (c : ℕ) (date doc_id : String) (line_no : ℕ)
    (account : String) (debit credit : ℚ) (memo : String)
    (fx_rate : ℚ := 1) (base_amount : ℚ := 0) : ℕ × JE :=
  (c + 1,
   { je_id := jeIdStr (c + 1), date := date, doc_id := doc_id,
     line_no := line_no, account := account, debit := debit,
     credit := credit, memo := memo, fx_rate := fx_rate,
     base_amount := base_amount })

/-- The line-item loop of the `invoice` / `utility_bill` branch:
debit each line's gl-hint account at `line_total * fx_rate`. -/
def invoiceLineJEs (d : Doc) : List LineItem → ℕ → ℕ × List JE
  | [], c => (c, [])
  | l :: ls, c =>
    let p := generate_journal_entry c d.issue_date d.id l.line_no
      (glAccount l.gl_hint) (l.line_total * d.fx_rate) 0
      ("Expense for " ++ l.description) d.fx_rate l.line_total
    let rest := invoiceLineJEs d ls p.1
    (rest.1, p.2 :: rest.2)

/-- The line-item loop of the `sales_invoice` branch: credit each
line's gl-hint account at `line_total` (no fx applied). -/
def salesLineJEs (d : Doc) : List LineItem → ℕ → ℕ × List JE
  | [], c => (c, [])
  | l :: ls, c =>
    let p := generate_journal_entry c d.issue_date d.id l.line_no
      (glAccount l.gl_hint) 0 l.line_total ("Sales for " ++ l.description)
    let rest := salesLineJEs d ls p.1
    (rest.1, p.2 :: rest.2)

/-- The line-item loop of the `credit_note` branch: credit each line's
gl-hint account at `abs(line_total)`. -/
def cnLineJEs (d : Doc) : List LineItem → ℕ → ℕ × List JE
  | [], c => (c, [])
  | l :: ls, c =>
    let p := generate_journal_entry c d.issue_date d.id l.line_no
      (glAccount l.gl_hint) 0 |l.line_total| ("CN Reversal for " ++ l.description)
    let rest := cnLineJEs d ls p.1
    (rest.1, p.2 :: rest.2)

/-- The journal batch and subledger rows produced for one non-skipped
document (`run`, the three `doc_type` branches; any other `doc_type`
falls through all branches and produces nothing). -/
def docBatch (lis : List LineItem) (d : Doc) (c : ℕ) :
    ℕ × List JE × List APRow × List APRow :=
  let doc_lines := lis.filter (fun l => l.document_id == d.id)
  let tax : ℚ := d.tax_amount.getD 0        -- NaN -> 0.0
  if d.doc_type == "invoice" || d.doc_type == "utility_bill" then
    let r1 := invoiceLineJEs d doc_lines c
    let tax_base := tax * d.fx_rate
    let r2 :=
      if tax_base > 0 then
        let p := generate_journal_entry r1.1 d.issue_date d.id 0
          "1400 Input Tax" tax_base 0 (d.tax_label ++ " Input Tax") d.fx_rate tax
        (p.1, r1.2 ++ [p.2])
      else (r1.1, r1.2)
    let r3 :=
      if d.shipping > 0 then
        let p := generate_journal_entry r2.1 d.issue_date d.id 0
          "5300 Office Supplies" (d.shipping * d.fx_rate) 0 "Shipping Expense"
          d.fx_rate d.shipping
        (p.1, r2.2 ++ [p.2])
      else (r2.1, r2.2)
    let p4 := generate_journal_entry r3.1 d.issue_date d.id 0
      "2100 Accounts Payable" 0 d.base_amount_total
      ("AP for " ++ d.doc_number) d.fx_rate d.total
    (p4.1, r3.2 ++ [p4.2],
     [{ doc_id := d.id, counterparty_id := d.vendor_customer_id,
        total := d.base_amount_total, amount_due := d.base_amount_total,
        due_date := d.due_date, status := "outstanding" }], [])
  else if d.doc_type == "sales_invoice" then
    let r1 := salesLineJEs d doc_lines c
    let r2 :=
      if tax > 0 then
        let p := generate_journal_entry r1.1 d.issue_date d.id 0
          "2200 Output Tax" 0 tax (d.tax_label ++ " Output Tax")
        (p.1, r1.2 ++ [p.2])
      else (r1.1, r1.2)
    let p3 := generate_journal_entry r2.1 d.issue_date d.id 0
      "1200 Accounts Receivable" d.total 0 ("AR for " ++ d.doc_number)
    (p3.1, r2.2 ++ [p3.2], [],
     [{ doc_id := d.id, counterparty_id := d.vendor_customer_id,
        total := d.total, amount_due := d.total,
        due_date := d.due_date, status := "outstanding" }])
  else if d.doc_type == "credit_note" then
    let r1 := cnLineJEs d doc_lines c
    let r2 :=
      if tax < 0 then
        let p := generate_journal_entry r1.1 d.issue_date d.id 0
          "1400 Input Tax" 0 |tax| (d.tax_label ++ " Input Tax Reversal")
        (p.1, r1.2 ++ [p.2])
      else (r1.1, r1.2)
    let p3 := generate_journal_entry r2.1 d.issue_date d.id 0
      "2100 Accounts Payable" |d.total| 0 ("AP reduction for " ++ d.doc_number)
    (p3.1, r2.2 ++ [p3.2],
     [{ doc_id := d.id, counterparty_id := d.vendor_customer_id,
        total := d.total, amount_due := d.total,
        due_date := d.due_date, status := "outstanding" }], [])
  else
    (c, [], [], [])

/-- `self.dfs['Documents'].loc[id == doc_id, 'status'] = st`. -/
def setDocStatus (docs : List Doc) (doc_id st : String) : List Doc :=
  docs.map (fun d => if d.id == doc_id then { d with status := st } else d)

/-- Loop state of `PostingEngineAgent.run`. -/
structure PEState where
  documents : List Doc
  auditLog : List AuditRow
  counter : ℕ
  newJes : List JE
  newAps : List APRow
  newArs : List APRow
  deriving Repr, DecidableEq

/-- One iteration of the document loop in `PostingEngineAgent.run`. -/
def peStep (lis : List LineItem) (st : PEState) (d : Doc) : PEState :=
  if d.doc_type == "quotation" || d.doc_type == "SO" then
    { st with
      documents := setDocStatus st.documents d.id "skipped",
      auditLog := st.auditLog ++
        [{ actor := "PostingEngineAgent", action := "SKIPPED_INFO_DOC",
           doc_id := d.id,
           details := "Document type '" ++ d.doc_type ++
             "' is informational, skipping GL post." }] }
  else
    let b := docBatch lis d st.counter
    { documents := setDocStatus st.documents d.id "posted",
      auditLog := st.auditLog ++
        [{ actor := "PostingEngineAgent", action := "POSTED", doc_id := d.id,
           details := "Created journal entries." }],
      counter := b.1,
      newJes := st.newJes ++ b.2.1,
      newAps := st.newAps ++ b.2.2.1,
      newArs := st.newArs ++ b.2.2.2 }

/-- `PostingEngineAgent.run`: process all `ready` documents, then
append the accumulated journal / AP / AR rows to the tables. -/
def posting_run (s : Store) : Store :=
  let ready := s.Documents.filter (fun d => d.status == "ready")
  let init : PEState :=
    { documents := s.Documents, auditLog := s.AuditLog,
      counter := s.JournalEntries.length,       -- je_counter = len(JournalEntries)
      newJes := [], newAps := [], newArs := [] }
  let fin := ready.foldl (peStep s.LineItems) init
  { s with
    Documents := fin.documents,
    AuditLog := fin.auditLog,
    JournalEntries := s.JournalEntries ++ fin.newJes,
    AP := s.AP ++ fin.newAps,
    AR := s.AR ++ fin.newArs }

/-- Status of the document with a given id (first matching row). -/
def docStatus (docs : List Doc) (doc_id : String) : Option String :=
  ((docs.filter (fun d => d.id == doc_id)).head?).map Doc.status

/-- Sum of the `debit` column over a list of journal entries. -/
def sumDebit (l : List JE) : ℚ := (l.map JE.debit).sum

/-- Sum of the `credit` column over a list of journal entries. -/
def sumCredit (l : List JE) : ℚ := (l.map JE.credit).sum

/-- The journal entries carrying a given `doc_id`. -/
def entriesFor (l : List JE) (doc_id : String) : List JE :=
  l.filter (fun je => je.doc_id == doc_id)

/-! ## ValidationAgent (`agents/validation_agent.py`)

The `%d/%m/%Y` string-to-date parsing of `pd.to_datetime` is a
parameter `parse : String → Option ℤ` (day codes, `none` = `NaT`), and
the `ai_analyze_exception` oracle is a parameter
`explain : Doc → String → String`. -/

/-- One application of `pd.to_datetime(..., format='%d/%m/%Y',
errors='coerce')` to a stored FX date (already-coerced values are left
as they are, as pandas does). -/
def coerceFxDate (parse : String → Option ℤ) : FXDate → FXDate
  | .raw s => .parsed (parse s)
  | .parsed d => .parsed d

/-- In-place coercion of the whole `date` column of `FXRates`. -/
def coerceFxTable (parse : String → Option ℤ) (fx : List FXRow) : List FXRow :=
  fx.map (fun r => { r with date := coerceFxDate parse r.date })

/-- `fx_df['date'] <= doc_date` on one row (`NaT` compares `False`). -/
def fxDateLe (d : FXDate) (target : ℤ) : Bool :=
  match d with
  | .parsed (some x) => x ≤ target
  | _ => false

/-- Numeric view of a stored FX date (used to state maximality). -/
def fxDateVal : FXDate → ℤ
  | .parsed (some x) => x
  | _ => 0

/-- `sort_values(by='date', ascending=False).head(1)`: a row of maximal
date among the candidates (pandas leaves the order of ties to the sort
algorithm; the model keeps the earliest such row). -/
def pickLatest : List FXRow → Option FXRow
  | [] => none
  | r :: rs =>
    match pickLatest rs with
    | none => some r
    | some m => if fxDateVal m.date > fxDateVal r.date then some m else some r

/-- `ValidationAgent.get_fx_rate`.  Returns the looked-up rate and the
`FXRates` table as left behind by the call (the source coerces the
`date` column of `self.dfs['FXRates']` in place before filtering). -/
def get_fx_rate (parse : String → Option ℤ) (fx : List FXRow)
    (date_str from_currency : String) (to_currency : String := "MYR") :
    Option ℚ × List FXRow :=
  if from_currency == to_currency then (some 1, fx)
  else
    let fx2 := coerceFxTable parse fx
    match parse date_str with
    | none => (none, fx2)
    | some doc_date =>
      let pair := from_currency ++ "/" ++ to_currency
      let cands := fx2.filter (fun r => r.pair == pair && fxDateLe r.date doc_date)
      ((pickLatest cands).map FXRow.rate, fx2)

/-- The document loop of `ValidationAgent.run`, threading the
`Documents` rows, the (possibly coerced) `FXRates` table and the audit
log. -/
def valLoop (parse : String → Option ℤ) (explain : Doc → String → String) :
    List Doc → List FXRow → List AuditRow → List Doc × List FXRow × List AuditRow
  | [], fx, au => ([], fx, au)
  | d :: ds, fx, au =>
    if d.status == "ready" && d.currency != "MYR" then
      let res := get_fx_rate parse fx d.issue_date d.currency "MYR"
      match res.1 with
      | some rate =>
        let rest := valLoop parse explain ds res.2 au
        ({ d with fx_rate := rate, base_amount_total := d.total * rate } :: rest.1,
         rest.2.1, rest.2.2)
      | none =>
        let error_msg := "No FX rate found for " ++ d.currency ++ " on " ++
          d.issue_date ++ ". Base total cannot be calculated."
        let recMsg := explain d error_msg
        let d' := { d with
          status := "Exception: FX - " ++ ((recMsg.replace "FIX: " "").take 50) }
        let au' := au ++ [{ actor := "ValidationAgent",
                            action := "AI_EXCEPTION_ANALYSIS",
                            doc_id := d.id, details := recMsg }]
        let rest := valLoop parse explain ds res.2 au'
        (d' :: rest.1, rest.2.1, rest.2.2)
    else
      let rest := valLoop parse explain ds fx au
      (d :: rest.1, rest.2.1, rest.2.2)

/-- `ValidationAgent.run`.  `init` says whether the `fx_rate` /
`base_amount_total` columns were absent from `Documents` (the source
then creates them with defaults `1.0` and `total`); this is the state
of the CSV data the pipeline feeds in. -/
def validation_run (parse : String → Option ℤ) (explain : Doc → String → String)
    (init : Bool) (s : Store) : Store :=
  let docs0 :=
    if init then
      s.Documents.map (fun d => { d with fx_rate := 1, base_amount_total := d.total })
    else s.Documents
  let res := valLoop parse explain docs0 s.FXRates s.AuditLog
  { s with Documents := res.1, FXRates := res.2.1, AuditLog := res.2.2 }

/-! ## ReconciliationAgent (`agents/reconciliation_agent.py`)

The `ai_suggest_match` oracle is a parameter
`suggest : BankTxn → List APRow → Option String`.  An unhandled
`IndexError` (oracle names a `doc_number` that matches no document) is
modelled as `Except.error`. -/

/-- `ReconciliationAgent.generate_payment_entry`: consumes two
consecutive ids and returns the balanced debit/credit pair. -/
def generate_payment_entry (c : ℕ) (date doc_id account_dr account_cr : String)
    (amount : ℚ) (memo : String) : JE × JE :=
  let amt := |amount|
  ({ je_id := jeIdStr (c + 1), date := date, doc_id := doc_id, line_no := 0,
     account := account_dr, debit := amt, credit := 0, memo := memo,
     fx_rate := 1, base_amount := amt },
   { je_id := jeIdStr (c + 2), date := date, doc_id := doc_id, line_no := 0,
     account := account_cr, debit := 0, credit := amt, memo := memo,
     fx_rate := 1, base_amount := amt })

/-- The credit-note netting pre-pass (`run`, step 1): hardcoded to the
pair `DOC-CN-0001` / `DOC-INV-0001`. -/
def apply_cn_netting (ap : List APRow) : List APRow :=
  let cn_rows := ap.filter (fun r => r.doc_id == "DOC-CN-0001" && r.status == "outstanding")
  let has_inv := ap.any (fun r => r.doc_id == "DOC-INV-0001")
  match cn_rows.head? with
  | none => ap
  | some cn =>
    if has_inv then
      ap.map (fun r =>
        if r.doc_id == "DOC-INV-0001" then { r with amount_due := r.amount_due + cn.total }
        else if r.doc_id == "DOC-CN-0001" && r.status == "outstanding" then
          { r with status := "cleared_applied" }
        else r)
    else ap

/-- Loop state of the bank-feed matching pass. -/
structure RState where
  ap : List APRow
  ar : List APRow
  counter : ℕ
  newJes : List JE
  audit : List AuditRow
  deriving Repr, DecidableEq

/-- The AP-payment / AR-collection update once a document is resolved
(`run`, step 2, after `doc_id = matching_docs['id'].iloc[0]`). -/
def reconSettle (dt : String) (guess : String) (doc_id : String)
    (amount : ℚ) (st : RState) : RState :=
  if amount < 0 then
    let pred := fun (r : APRow) => r.doc_id == doc_id && r.amount_due > (1 / 100 : ℚ)
    match (st.ap.filter pred).head? with
    | none => st
    | some r =>
      let abs_amount := |amount|
      let new_amount_due := r.amount_due - abs_amount
      let status := if new_amount_due ≤ (1 / 100 : ℚ) then "paid" else "partial_paid"
      let pair := generate_payment_entry st.counter dt doc_id
        "2100 Accounts Payable" "1100 Cash/Bank" abs_amount ("Payment for " ++ guess)
      { st with
        ap := st.ap.map (fun x =>
          if pred x then { x with amount_due := new_amount_due, status := status } else x),
        counter := st.counter + 2,
        newJes := st.newJes ++ [pair.1, pair.2],
        audit := st.audit ++ [{ actor := "ReconciliationAgent",
                                action := "CLEARED_AP", doc_id := doc_id,
                                details := "Matched bank payment. Status updated to " ++
                                  status ++ "." }] }
  else if amount > 0 then
    let pred := fun (r : APRow) => r.doc_id == doc_id && r.amount_due > (1 / 100 : ℚ)
    match (st.ar.filter pred).head? with
    | none => st
    | some r =>
      let new_amount_due := r.amount_due - amount
      let status := if new_amount_due ≤ (1 / 100 : ℚ) then "paid" else "partial_paid"
      let pair := generate_payment_entry st.counter dt doc_id
        "1100 Cash/Bank" "1200 Accounts Receivable" amount ("Collection for " ++ guess)
      { st with
        ar := st.ar.map (fun x =>
          if pred x then { x with amount_due := new_amount_due, status := status } else x),
        counter := st.counter + 2,
        newJes := st.newJes ++ [pair.1, pair.2],
        audit := st.audit ++ [{ actor := "ReconciliationAgent",
                                action := "CLEARED_AR", doc_id := doc_id,
                                details := "Matched bank collection. Status updated to " ++
                                  status ++ "." }] }
  else st

/-- One iteration of the bank-feed loop of `ReconciliationAgent.run`. -/
def reconStep (suggest : BankTxn → List APRow → Option String)
    (docs : List Doc) (st : RState) (txn : BankTxn) : Except String RState :=
  match txn.date with
  | none =>
    .ok { st with audit := st.audit ++
      [{ actor := "ReconciliationAgent", action := "ERROR", doc_id := "N/A",
         details := "Bank Feed txn failed due to invalid date/format." }] }
  | some dt =>
    let guess := txn.guess_doc_number
    match (docs.filter (fun d => d.doc_number == guess)).head? with
    | some d0 => .ok (reconSettle dt guess d0.id txn.amount st)
    | none =>
      let sub := if txn.amount < 0 then st.ap else st.ar
      let outstanding := sub.filter
        (fun r => r.status == "outstanding" || r.status == "partial_paid")
      match suggest txn outstanding with
      | none =>
        .ok { st with audit := st.audit ++
          [{ actor := "ReconciliationAgent", action := "UNMATCHED", doc_id := "N/A",
             details := "Bank txn failed standard and AI match. Memo: " ++ txn.memo }] }
      | some g =>
        match (docs.filter (fun d => d.doc_number == g)).head? with
        | none => .error "IndexError"          -- `iloc[0]` on an empty frame
        | some d0 => .ok (reconSettle dt g d0.id txn.amount st)

/-- `ReconciliationAgent.run`: netting pre-pass, then the bank-feed
loop, then write back AP / JournalEntries. -/
def reconciliation_run (suggest : BankTxn → List APRow → Option String)
    (s : Store) : Except String Store :=
  let ap0 := apply_cn_netting s.AP
  let init : RState :=
    { ap := ap0, ar := s.AR, counter := s.JournalEntries.length,
      newJes := [], audit := s.AuditLog }
  (s.BankFeed.foldlM (reconStep suggest s.Documents) init).map fun fin =>
    { s with
      AP := fin.ap, AR := fin.ar,
      JournalEntries := s.JournalEntries ++ fin.newJes,
      AuditLog := fin.audit }

/-! ## Review resume endpoint (`agents/main.py`, `resolve_approval`) -/

/-- Outcome of `resolve_approval`: the success payload or the 404
`HTTPException` ("Document not found or status already changed."). -/
inductive ApprovalResult where
  | success (message : String)
  | notFound
  deriving Repr, DecidableEq

/-- `resolve_approval(doc_id, key)`: look for a row with this id in
status `REVIEW_PENDING`; if present set its status to `'READY'` and
report success, otherwise raise 404 and change nothing.  The `key`
query parameter is accepted but never inspected. -/
def resolve_approval (s : Store) (doc_id : String) (key : String) :
    ApprovalResult × Store :=
  let hits := s.Documents.filter
    (fun d => d.id == doc_id && d.status == "REVIEW_PENDING")
  if hits.isEmpty then (.notFound, s)
  else
    (.success ("Document " ++ doc_id ++ " approved and marked 'READY'."),
     { s with Documents := s.Documents.map (fun d =>
         if d.id == doc_id && d.status == "REVIEW_PENDING" then
           { d with status := "READY" }
         else d) })

/-! ## Concrete fixtures -/

/-- A `sales_invoice` with a nonzero shipping component (`total`
includes shipping, as the extraction layer produces it). -/
def docSalesShip : Doc :=
  { id := "DOC-SI-9", doc_type := "sales_invoice", doc_number := "SI-9",
    vendor_customer_id := "C1", counterparty_type := "customer",
    issue_date := "2025-01-01", due_date := "2025-02-01", currency := "MYR",
    tax_label := "SST", tax_amount := some 0, shipping := 20, total := 120,
    fx_rate := 1, base_amount_total := 120, status := "ready" }

def storeSalesShip : Store :=
  { Documents := [docSalesShip],
    LineItems := [{ document_id := "DOC-SI-9", line_no := 1,
                    description := "goods", line_total := 100,
                    gl_hint := "4000 Sales" }],
    JournalEntries := [], AP := [], AR := [], FXRates := [], BankFeed := [],
    AuditLog := [] }

/-- A vendor invoice whose `base_amount_total` does not equal the sum
of its components (a config/enrichment defect upstream). -/
def docBadBase : Doc :=
  { id := "DOC-INV-X", doc_type := "invoice", doc_number := "INV-X",
    vendor_customer_id := "V1", counterparty_type := "vendor",
    issue_date := "2025-01-01", due_date := "2025-02-01", currency := "MYR",
    tax_label := "SST", tax_amount := some 0, shipping := 0, total := 100,
    fx_rate := 1, base_amount_total := 50, status := "ready" }

def storeBadBase : Store :=
  { Documents := [docBadBase],
    LineItems := [{ document_id := "DOC-INV-X", line_no := 1,
                    description := "consulting", line_total := 100,
                    gl_hint := "5000 Consulting" }],
    JournalEntries := [], AP := [], AR := [], FXRates := [], BankFeed := [],
    AuditLog := [] }

/-- A `ready` document of a type matched by no posting rule. -/
def docPO : Doc :=
  { id := "DOC-PO-1", doc_type := "PO", doc_number := "PO-1",
    vendor_customer_id := "V1", counterparty_type := "vendor",
    issue_date := "2025-01-01", due_date := "2025-02-01", currency := "MYR",
    tax_label := "SST", tax_amount := some 0, shipping := 0, total := 100,
    fx_rate := 1, base_amount_total := 100, status := "ready" }

def storePO : Store :=
  { Documents := [docPO], LineItems := [], JournalEntries := [], AP := [],
    AR := [], FXRates := [], BankFeed := [], AuditLog := [] }

/-- A document awaiting review resolution. -/
def docPending : Doc :=
  { id := "DOC-B77", doc_type := "invoice", doc_number := "B77",
    vendor_customer_id := "V1", counterparty_type := "vendor",
    issue_date := "2025-01-01", due_date := "2025-02-01", currency := "IDR",
    tax_label := "VAT", tax_amount := some 0, shipping := 0, total := 100,
    fx_rate := 1, base_amount_total := 100, status := "REVIEW_PENDING" }

def storePending : Store :=
  { Documents := [docPending],
    LineItems := [{ document_id := "DOC-B77", line_no := 1,
                    description := "supplies", line_total := 100,
                    gl_hint := "5300 Office Supplies" }],
    JournalEntries := [], AP := [], AR := [], FXRates := [], BankFeed := [],
    AuditLog := [] }

/-! ## Claims -/

/-- C10: the approve resume endpoint's behaviour is independent of the
token it receives: for any store, any `doc_id` and any two values of
the `key` parameter, `resolve_approval` produces the identical
response and the identical resulting store. -/
theorem C10_resolve_approval_ignores_token (s : Store) (doc_id k1 k2 : String) :
    resolve_approval s doc_id k1 = resolve_approval s doc_id k2 := rfl

/-- C5, evaluated at the failing input: approving a `REVIEW_PENDING`
document reports success but sets the status to the uppercase
`"READY"`, which the PostingEngine's filter on `"ready"` never selects,
so the approved document is not eligible for posting; a `doc_id` that
matches no `REVIEW_PENDING` row yields the 404 outcome and leaves the
store unchanged. -/
theorem C5_approve_sets_unpostable_status :
    (resolve_approval storePending "DOC-B77" "token-one").1 =
      .success "Document DOC-B77 approved and marked 'READY'." ∧
    docStatus (resolve_approval storePending "DOC-B77" "token-one").2.Documents
      "DOC-B77" = some "READY" ∧
    (posting_run (resolve_approval storePending "DOC-B77" "token-one").2).JournalEntries
      = [] ∧
    docStatus (posting_run
      (resolve_approval storePending "DOC-B77" "token-one").2).Documents "DOC-B77"
      = some "READY" ∧
    resolve_approval storePending "DOC-MISSING" "token-one" =
      (.notFound, storePending) := by
  decide

/-- C3, evaluated at the failing input: a `ready` document whose
`doc_type` (`PO`) matches no posting rule falls through every branch,
is still marked `posted` with zero journal entries, and is even audit
logged as `POSTED` — the opposite of the integrity-fault treatment the
claim requires. -/
theorem C3_unmatched_doctype_silently_posted :
    docStatus (posting_run storePO).Documents "DOC-PO-1" = some "posted" ∧
    entriesFor (posting_run storePO).JournalEntries "DOC-PO-1" = [] ∧
    (posting_run storePO).AuditLog =
      [{ actor := "PostingEngineAgent", action := "POSTED", doc_id := "DOC-PO-1",
         details := "Created journal entries." }] := by
  decide

/-- C2, evaluated at the failing input: the engine performs no balance
verification — a vendor invoice whose `base_amount_total` (50) differs
from its debit side (100) is committed as an imbalanced batch, the
document is marked `posted`, and no CRITICAL-severity audit entry is
written. -/
theorem C2_no_balance_check_commits_imbalanced :
    docStatus (posting_run storeBadBase).Documents "DOC-INV-X" = some "posted" ∧
    (entriesFor (posting_run storeBadBase).JournalEntries "DOC-INV-X").length = 2 ∧
    sumDebit (entriesFor (posting_run storeBadBase).JournalEntries "DOC-INV-X") = 100 ∧
    sumCredit (entriesFor (posting_run storeBadBase).JournalEntries "DOC-INV-X") = 50 ∧
    ∀ a ∈ (posting_run storeBadBase).AuditLog, a.action ≠ "CRITICAL" := by
  refine ⟨?_, ?_, ?_, ?_, by decide⟩ <;>
  norm_num [posting_run, peStep, docBatch, invoiceLineJEs, generate_journal_entry,
    glAccount, setDocStatus, docStatus, sumDebit, sumCredit, entriesFor,
    storeBadBase, docBadBase, List.filter, List.foldl]

/-- C1, counterexample: a posted document whose journal entries do not
balance within 1e-6.  The `sales_invoice` branch ignores `shipping`, so
a sales invoice whose `total` (120) includes shipping (20) posts
credits of 100 against a debit of 120 and is still marked `posted`. -/
theorem C1_counterexample :
    docStatus (posting_run storeSalesShip).Documents "DOC-SI-9" = some "posted" ∧
    ¬ (|sumDebit (entriesFor (posting_run storeSalesShip).JournalEntries "DOC-SI-9") -
        sumCredit (entriesFor (posting_run storeSalesShip).JournalEntries "DOC-SI-9")| ≤
        (1 / 1000000 : ℚ)) := by
  norm_num [posting_run, peStep, docBatch, salesLineJEs, generate_journal_entry,
    glAccount, setDocStatus, docStatus, sumDebit, sumCredit, entriesFor,
    storeSalesShip, docSalesShip, List.filter, List.foldl]

/-! ## C1 (amended): balance of posted batches under consistent inputs -/

/-- Sum of `line_total` over line items. -/
def lineSum (lis : List LineItem) : ℚ := (lis.map LineItem.line_total).sum

/-- Consistency of a document's amount fields with its line items —
the conditions under which the journal batch the engine generates for
it balances.  (The engine itself never checks any of this.) -/
def Consistent (lis : List LineItem) (d : Doc) : Prop :=
  let lines := lis.filter (fun l => l.document_id == d.id)
  let tax : ℚ := d.tax_amount.getD 0
  if d.doc_type = "invoice" ∨ d.doc_type = "utility_bill" then
    0 ≤ tax ∧ 0 ≤ d.shipping ∧ 0 < d.fx_rate ∧
    d.total = lineSum lines + tax + d.shipping ∧
    d.base_amount_total = d.total * d.fx_rate
  else if d.doc_type = "sales_invoice" then
    0 ≤ tax ∧ d.total = lineSum lines + tax
  else if d.doc_type = "credit_note" then
    (∀ l ∈ lines, l.line_total ≤ 0) ∧ tax ≤ 0 ∧ d.total = lineSum lines + tax
  else True

lemma sumDebit_append (a b : List JE) : sumDebit (a ++ b) = sumDebit a + sumDebit b := by
  simp [sumDebit]

lemma sumCredit_append (a b : List JE) : sumCredit (a ++ b) = sumCredit a + sumCredit b := by
  simp [sumCredit]

lemma invoiceLineJEs_sums (d : Doc) (ls : List LineItem) (c : ℕ) :
    sumDebit (invoiceLineJEs d ls c).2 = lineSum ls * d.fx_rate ∧
    sumCredit (invoiceLineJEs d ls c).2 = 0 := by
  induction ls generalizing c with
  | nil => simp [invoiceLineJEs, sumDebit, sumCredit, lineSum]
  | cons l t ih =>
    obtain ⟨ihd, ihc⟩ := ih ((generate_journal_entry c d.issue_date d.id l.line_no
      (glAccount l.gl_hint) (l.line_total * d.fx_rate) 0
      ("Expense for " ++ l.description) d.fx_rate l.line_total).1)
    simp only [invoiceLineJEs, sumDebit, sumCredit, List.map_cons, List.sum_cons,
      lineSum] at *
    constructor
    · rw [ihd]; simp [generate_journal_entry, lineSum]; ring
    · rw [ihc]; simp [generate_journal_entry]

lemma salesLineJEs_sums (d : Doc) (ls : List LineItem) (c : ℕ) :
    sumDebit (salesLineJEs d ls c).2 = 0 ∧
    sumCredit (salesLineJEs d ls c).2 = lineSum ls := by
  induction ls generalizing c with
  | nil => simp [salesLineJEs, sumDebit, sumCredit, lineSum]
  | cons l t ih =>
    obtain ⟨ihd, ihc⟩ := ih ((generate_journal_entry c d.issue_date d.id l.line_no
      (glAccount l.gl_hint) 0 l.line_total ("Sales for " ++ l.description)).1)
    simp only [salesLineJEs, sumDebit, sumCredit, List.map_cons, List.sum_cons,
      lineSum] at *
    constructor
    · rw [ihd]; simp [generate_journal_entry]
    · rw [ihc]; simp [generate_journal_entry, lineSum]

lemma cnLineJEs_sums (d : Doc) (ls : List LineItem)
    (h : ∀ l ∈ ls, l.line_total ≤ 0) : ∀ c : ℕ,
    sumDebit (cnLineJEs d ls c).2 = 0 ∧
    sumCredit (cnLineJEs d ls c).2 = -(lineSum ls) := by
  induction ls with
  | nil => intro c; simp [cnLineJEs, sumDebit, sumCredit, lineSum]
  | cons l t ih =>
    intro c
    have hl : l.line_total ≤ 0 := h l (List.mem_cons_self l t)
    have ht : ∀ x ∈ t, x.line_total ≤ 0 := fun x hx => h x (List.mem_cons_of_mem l hx)
    obtain ⟨ihd, ihc⟩ := ih ht ((generate_journal_entry c d.issue_date d.id
      l.line_no (glAccount l.gl_hint) 0 |l.line_total|
      ("CN Reversal for " ++ l.description)).1)
    simp only [cnLineJEs, sumDebit, sumCredit, List.map_cons, List.sum_cons,
      lineSum] at *
    constructor
    · rw [ihd]; simp [generate_journal_entry]
    · rw [ihc]; simp [generate_journal_entry, lineSum, abs_of_nonpos hl]; ring

lemma lineSum_nonpos (ls : List LineItem) (h : ∀ l ∈ ls, l.line_total ≤ 0) :
    lineSum ls ≤ 0 := by
  have : ∀ x ∈ ls.map LineItem.line_total, x ≤ 0 := by
    intro x hx
    obtain ⟨l, hl, rfl⟩ := List.mem_map.mp hx
    exact h l hl
  unfold lineSum
  induction ls with
  | nil => simp
  | cons l t ih =>
    simp only [List.map_cons, List.sum_cons]
    have h1 : l.line_total ≤ 0 := h l (List.mem_cons_self l t)
    have h2 : (t.map LineItem.line_total).sum ≤ 0 := by
      apply ih (fun x hx => h x (List.mem_cons_of_mem l hx))
      intro x hx
      obtain ⟨y, hy, rfl⟩ := List.mem_map.mp hx
      exact h y (List.mem_cons_of_mem l hy)
    linarith

lemma docBatch_balanced (lis : List LineItem) (d : Doc) (c : ℕ)
    (h : Consistent lis d) :
    sumDebit (docBatch lis d c).2.1 = sumCredit (docBatch lis d c).2.1 := by
  unfold Consistent at h
  by_cases h1 : d.doc_type = "invoice" ∨ d.doc_type = "utility_bill"
  · rw [if_pos h1] at h
    obtain ⟨htax0, hship0, hfx, htot, hbase⟩ := h
    have hcond : (d.doc_type == "invoice" || d.doc_type == "utility_bill") = true := by
      rcases h1 with h1 | h1 <;> simp [h1]
    obtain ⟨lid, lic⟩ :=
      invoiceLineJEs_sums d (lis.filter (fun l => l.document_id == d.id)) c
    by_cases htb : (d.tax_amount.getD 0) * d.fx_rate > 0 <;>
      by_cases hsb : d.shipping > 0 <;>
      simp only [docBatch, hcond, if_true, htb, hsb, if_false,
        sumDebit_append, sumCredit_append, lid, lic] <;>
      simp only [sumDebit, sumCredit, List.map_cons, List.map_nil, List.sum_cons,
        List.sum_nil, generate_journal_entry] <;>
      rw [hbase, htot]
    · ring
    · have hsz : d.shipping = 0 := le_antisymm (not_lt.mp hsb) hship0
      rw [hsz]; ring
    · have htz : (d.tax_amount.getD 0) * d.fx_rate = 0 :=
        le_antisymm (not_lt.mp htb) (mul_nonneg htax0 hfx.le)
      linear_combination -htz
    · have htz : (d.tax_amount.getD 0) * d.fx_rate = 0 :=
        le_antisymm (not_lt.mp htb) (mul_nonneg htax0 hfx.le)
      have hsz : d.shipping = 0 := le_antisymm (not_lt.mp hsb) hship0
      rw [hsz]
      linear_combination -htz
  · rw [if_neg h1] at h
    have hcond : (d.doc_type == "invoice" || d.doc_type == "utility_bill") = false := by
      push_neg at h1
      simp [h1.1, h1.2]
    by_cases h2 : d.doc_type = "sales_invoice"
    · rw [if_pos h2] at h
      obtain ⟨htax0, htot⟩ := h
      obtain ⟨lid, lic⟩ :=
        salesLineJEs_sums d (lis.filter (fun l => l.document_id == d.id)) c
      have hcond2 : (d.doc_type == "sales_invoice") = true := by simp [h2]
      by_cases htb : (d.tax_amount.getD 0) > 0 <;>
        simp only [docBatch, hcond, Bool.false_eq_true, if_false, hcond2, if_true,
          htb, sumDebit_append, sumCredit_append, lid, lic] <;>
        simp only [sumDebit, sumCredit, List.map_cons, List.map_nil, List.sum_cons,
          List.sum_nil, generate_journal_entry] <;>
        rw [htot]
      · ring
      · have htz : (d.tax_amount.getD 0) = 0 := le_antisymm (not_lt.mp htb) htax0
        rw [htz]; ring
    · rw [if_neg h2] at h
      have hcond2 : (d.doc_type == "sales_invoice") = false := by simp [h2]
      by_cases h3 : d.doc_type = "credit_note"
      · rw [if_pos h3] at h
        obtain ⟨hlines, htax0, htot⟩ := h
        obtain ⟨lid, lic⟩ :=
          cnLineJEs_sums d (lis.filter (fun l => l.document_id == d.id)) hlines c
        have hls : lineSum (lis.filter (fun l => l.document_id == d.id)) ≤ 0 :=
          lineSum_nonpos _ hlines
        have htotneg : d.total ≤ 0 := by rw [htot]; linarith
        have hcond3 : (d.doc_type == "credit_note") = true := by simp [h3]
        by_cases htb : (d.tax_amount.getD 0) < 0 <;>
          simp only [docBatch, hcond, hcond2, Bool.false_eq_true, if_false, hcond3,
            if_true, htb, sumDebit_append, sumCredit_append, lid, lic] <;>
          simp only [sumDebit, sumCredit, List.map_cons, List.map_nil,
            List.sum_cons, List.sum_nil, generate_journal_entry] <;>
          rw [abs_of_nonpos htotneg, htot]
        · rw [abs_of_nonpos htb.le]; ring
        · have htz : (d.tax_amount.getD 0) = 0 := le_antisymm htax0 (not_lt.mp htb)
          rw [htz]; ring
      · have hcond3 : (d.doc_type == "credit_note") = false := by simp [h3]
        simp [docBatch, hcond, hcond2, hcond3, sumDebit, sumCredit]

lemma invoiceLineJEs_doc_id (d : Doc) (ls : List LineItem) (c : ℕ) :
    ∀ je ∈ (invoiceLineJEs d ls c).2, je.doc_id = d.id := by
  induction ls generalizing c with
  | nil => simp [invoiceLineJEs]
  | cons l t ih =>
    intro je hje
    simp only [invoiceLineJEs, List.mem_cons] at hje
    rcases hje with rfl | hje
    · rfl
    · exact ih _ je hje

lemma salesLineJEs_doc_id (d : Doc) (ls : List LineItem) (c : ℕ) :
    ∀ je ∈ (salesLineJEs d ls c).2, je.doc_id = d.id := by
  induction ls generalizing c with
  | nil => simp [salesLineJEs]
  | cons l t ih =>
    intro je hje
    simp only [salesLineJEs, List.mem_cons] at hje
    rcases hje with rfl | hje
    · rfl
    · exact ih _ je hje

lemma cnLineJEs_doc_id (d : Doc) (ls : List LineItem) (c : ℕ) :
    ∀ je ∈ (cnLineJEs d ls c).2, je.doc_id = d.id := by
  induction ls generalizing c with
  | nil => simp [cnLineJEs]
  | cons l t ih =>
    intro je hje
    simp only [cnLineJEs, List.mem_cons] at hje
    rcases hje with rfl | hje
    · rfl
    · exact ih _ je hje

lemma docBatch_doc_id (lis : List LineItem) (d : Doc) (c : ℕ) :
    ∀ je ∈ (docBatch lis d c).2.1, je.doc_id = d.id := by
  intro je hje
  simp only [docBatch] at hje
  repeat' split at hje
  all_goals
    simp only [List.mem_append, List.mem_cons, List.not_mem_nil, or_false] at hje
  all_goals
    try rcases hje with (hje | rfl) | rfl
  all_goals
    try rcases hje with hje | rfl
  all_goals try rfl
  all_goals
    first
    | exact invoiceLineJEs_doc_id d _ _ je hje
    | exact salesLineJEs_doc_id d _ _ je hje
    | exact cnLineJEs_doc_id d _ _ je hje
    | exact absurd hje (List.not_mem_nil je)

lemma entriesFor_append (a b : List JE) (q : String) :
    entriesFor (a ++ b) q = entriesFor a q ++ entriesFor b q := by
  simp [entriesFor]

lemma entriesFor_of_uniform {B : List JE} {did : String}
    (h : ∀ je ∈ B, je.doc_id = did) (q : String) :
    entriesFor B q = if did = q then B else [] := by
  unfold entriesFor
  split
  · next heq =>
    apply List.filter_eq_self.mpr
    intro je hje
    simp [h je hje, heq]
  · next hne =>
    apply List.filter_eq_nil_iff.mpr
    intro je hje
    simp [h je hje]
    exact fun hc => hne hc

/-- The balance invariant carried through the posting loop. -/
def BalancedBatches (l : List JE) : Prop :=
  ∀ q : String, sumDebit (entriesFor l q) = sumCredit (entriesFor l q)

lemma balancedBatches_append {a b : List JE}
    (ha : BalancedBatches a) (hb : BalancedBatches b) : BalancedBatches (a ++ b) := by
  intro q
  rw [entriesFor_append, sumDebit_append, sumCredit_append, ha q, hb q]

lemma docBatch_balancedBatches (lis : List LineItem) (d : Doc) (c : ℕ)
    (h : Consistent lis d) : BalancedBatches (docBatch lis d c).2.1 := by
  intro q
  rw [entriesFor_of_uniform (docBatch_doc_id lis d c) q]
  split
  · exact docBatch_balanced lis d c h
  · rfl

lemma peStep_newJes (lis : List LineItem) (st : PEState) (d : Doc) :
    (peStep lis st d).newJes = st.newJes ∨
    (peStep lis st d).newJes = st.newJes ++ (docBatch lis d st.counter).2.1 := by
  unfold peStep
  split
  · exact Or.inl rfl
  · exact Or.inr rfl

lemma postLoop_balanced (lis : List LineItem) (docs : List Doc)
    (hcons : ∀ d ∈ docs, Consistent lis d) :
    ∀ st : PEState, BalancedBatches st.newJes →
      BalancedBatches (docs.foldl (peStep lis) st).newJes := by
  induction docs with
  | nil => intro st h; simpa using h
  | cons d rest ih =>
    intro st h
    have hd : Consistent lis d := hcons d (List.mem_cons_self d rest)
    have hrest : ∀ x ∈ rest, Consistent lis x :=
      fun x hx => hcons x (List.mem_cons_of_mem d hx)
    simp only [List.foldl_cons]
    apply ih hrest
    rcases peStep_newJes lis st d with heq | heq <;> rw [heq]
    · exact h
    · exact balancedBatches_append h (docBatch_balancedBatches lis d st.counter hd)

/-- C1 (amended): for every document the PostingEngine marks `posted`,
the debits equal the credits over the `JournalEntries` rows carrying
its `doc_id` (within 1e-6 — in fact exactly), provided every `ready`
document's amount fields are consistent with its line items
(`Consistent`) and no journal rows for that `doc_id` pre-date the run.
The engine itself checks none of this; `C1_counterexample` shows the
original unconditional claim fails. -/
theorem C1_posting_balance_amended (s : Store)
    (hcons : ∀ d ∈ s.Documents, d.status = "ready" → Consistent s.LineItems d)
    (docId : String)
    (hnew : ∀ je ∈ s.JournalEntries, je.doc_id ≠ docId)
    (hposted : docStatus (posting_run s).Documents docId = some "posted") :
    |sumDebit (entriesFor (posting_run s).JournalEntries docId) -
      sumCredit (entriesFor (posting_run s).JournalEntries docId)| ≤
      (1 / 1000000 : ℚ) := by
  have hready : ∀ d ∈ s.Documents.filter (fun d => d.status == "ready"),
      Consistent s.LineItems d := by
    intro d hd
    rw [List.mem_filter] at hd
    exact hcons d hd.1 (by simpa using hd.2)
  have hfold := postLoop_balanced s.LineItems
    (s.Documents.filter (fun d => d.status == "ready")) hready
    { documents := s.Documents, auditLog := s.AuditLog,
      counter := s.JournalEntries.length, newJes := [], newAps := [], newArs := [] }
    (by intro q; simp [entriesFor, sumDebit, sumCredit])
  have hje : (posting_run s).JournalEntries
      = s.JournalEntries ++
        ((s.Documents.filter (fun d => d.status == "ready")).foldl
          (peStep s.LineItems)
          { documents := s.Documents, auditLog := s.AuditLog,
            counter := s.JournalEntries.length, newJes := [], newAps := [],
            newArs := [] }).newJes := rfl
  have hold : entriesFor s.JournalEntries docId = [] := by
    apply List.filter_eq_nil_iff.mpr
    intro je hje'
    simpa using hnew je hje'
  rw [hje, entriesFor_append, hold, List.nil_append, hfold docId]
  simp

/-- The balanced vendor-invoice scenario of the spec (§8): subtotal
1000 + tax 80 + shipping 20 = total 1100, fx 1. -/
def docGoodInv : Doc :=
  { id := "DOC-INV-G", doc_type := "invoice", doc_number := "INV-G",
    vendor_customer_id := "V1", counterparty_type := "vendor",
    issue_date := "2025-01-01", due_date := "2025-02-01", currency := "MYR",
    tax_label := "SST", tax_amount := some 80, shipping := 20, total := 1100,
    fx_rate := 1, base_amount_total := 1100, status := "ready" }

def storeGoodInv : Store :=
  { Documents := [docGoodInv],
    LineItems := [{ document_id := "DOC-INV-G", line_no := 1,
                    description := "consulting", line_total := 1000,
                    gl_hint := "5000 Consulting" }],
    JournalEntries := [], AP := [], AR := [], FXRates := [], BankFeed := [],
    AuditLog := [] }

/-- Witness for `C1_posting_balance_amended` at the spec's own §8
scenario. -/
theorem C1_posting_balance_amended_witness :
    docStatus (posting_run storeGoodInv).Documents "DOC-INV-G" = some "posted" ∧
    |sumDebit (entriesFor (posting_run storeGoodInv).JournalEntries "DOC-INV-G") -
      sumCredit (entriesFor (posting_run storeGoodInv).JournalEntries "DOC-INV-G")| ≤
      (1 / 1000000 : ℚ) := by
  constructor
  · decide
  · apply C1_posting_balance_amended storeGoodInv
    · intro d hd hr
      simp only [storeGoodInv, List.mem_singleton] at hd
      subst hd
      norm_num [Consistent, lineSum, docGoodInv, storeGoodInv]
    · intro je hje
      simp [storeGoodInv] at hje
    · decide

/-! ## C7: the credit-note netting pre-pass -/

/-- An AP table holding an outstanding credit-note row (`DOC-CN-0002`,
negative total, referring to invoice `DOC-INV-0002`) that is *not* the
hardcoded pair. -/
def apOtherCN : List APRow :=
  [{ doc_id := "DOC-CN-0002", counterparty_id := "V2", total := -50,
     amount_due := -50, due_date := "2025-02-01", status := "outstanding" },
   { doc_id := "DOC-INV-0002", counterparty_id := "V2", total := 500,
     amount_due := 500, due_date := "2025-02-01", status := "outstanding" }]

/-- C7, counterexample: the pre-pass is hardcoded to the single pair
`DOC-CN-0001` / `DOC-INV-0001`; an outstanding credit-note AP row with
any other id (`DOC-CN-0002`, original invoice present in the table) is
left completely untouched — its status never becomes `cleared_applied`
and the invoice's `amount_due` is not adjusted. -/
theorem C7_counterexample :
    apply_cn_netting apOtherCN = apOtherCN ∧
    apOtherCN.map APRow.status = ["outstanding", "outstanding"] ∧
    (apOtherCN.map (fun r => r.amount_due)).getLast? = some 500 :=
  ⟨rfl, rfl, rfl⟩

lemma apply_cn_netting_no_cn (ap : List APRow)
    (h : (ap.filter
      (fun r => r.doc_id == "DOC-CN-0001" && r.status == "outstanding")).head? = none) :
    apply_cn_netting ap = ap := by
  simp only [apply_cn_netting]
  rw [h]

lemma apply_cn_netting_eq_map (ap : List APRow) (cn : APRow)
    (hcn : (ap.filter
      (fun r => r.doc_id == "DOC-CN-0001" && r.status == "outstanding")).head? = some cn)
    (hinv : ap.any (fun r => r.doc_id == "DOC-INV-0001") = true) :
    apply_cn_netting ap = ap.map (fun r =>
      if r.doc_id == "DOC-INV-0001" then { r with amount_due := r.amount_due + cn.total }
      else if r.doc_id == "DOC-CN-0001" && r.status == "outstanding" then
        { r with status := "cleared_applied" }
      else r) := by
  simp only [apply_cn_netting]
  rw [hcn]
  exact if_pos hinv

/-- C7 (amended): the netting pre-pass applies only the hardcoded pair:
when AP holds an outstanding row `DOC-CN-0001` (first such row `cn`)
and any row `DOC-INV-0001`, one pass adds `cn.total` to every
`DOC-INV-0001` row's `amount_due` and marks every outstanding
`DOC-CN-0001` row `cleared_applied`, leaving all other rows unchanged;
and the pass is idempotent — a second pass (over a table whose
credit-note rows are already `cleared_applied`) changes nothing. -/
theorem C7_netting_hardcoded_amended :
    (∀ ap : List APRow, apply_cn_netting (apply_cn_netting ap) = apply_cn_netting ap) ∧
    (∀ (ap : List APRow) (cn : APRow),
      (ap.filter (fun r => r.doc_id == "DOC-CN-0001" && r.status == "outstanding")).head?
        = some cn →
      ap.any (fun r => r.doc_id == "DOC-INV-0001") = true →
      ∀ j r, ap.get? j = some r →
        (r.doc_id = "DOC-INV-0001" →
          (apply_cn_netting ap).get? j =
            some { r with amount_due := r.amount_due + cn.total }) ∧
        (r.doc_id = "DOC-CN-0001" → r.status = "outstanding" →
          (apply_cn_netting ap).get? j = some { r with status := "cleared_applied" }) ∧
        (r.doc_id ≠ "DOC-INV-0001" → r.doc_id ≠ "DOC-CN-0001" →
          (apply_cn_netting ap).get? j = some r)) := by
  constructor
  · intro ap
    rcases hhead : (ap.filter
        (fun r => r.doc_id == "DOC-CN-0001" && r.status == "outstanding")).head? with
      _ | ⟨cn⟩
    · rw [apply_cn_netting_no_cn ap hhead, apply_cn_netting_no_cn ap hhead]
    · by_cases hinv : ap.any (fun r => r.doc_id == "DOC-INV-0001") = true
      · have hmap := apply_cn_netting_eq_map ap cn hhead hinv
        have hnone : ((apply_cn_netting ap).filter
            (fun r => r.doc_id == "DOC-CN-0001" && r.status == "outstanding")).head?
            = none := by
          rw [List.head?_eq_none_iff]
          apply List.filter_eq_nil_iff.mpr
          intro r' hr'
          rw [hmap, List.mem_map] at hr'
          obtain ⟨r, hr, rfl⟩ := hr'
          by_cases h1 : r.doc_id == "DOC-INV-0001"
          · simp only [h1, if_true]
            intro hcontra
            simp only [Bool.and_eq_true, beq_iff_eq] at hcontra h1
            rw [h1] at hcontra
            exact absurd hcontra.1 (by decide)
          · simp only [h1, Bool.false_eq_true, if_false]
            by_cases h2 : r.doc_id == "DOC-CN-0001" && r.status == "outstanding"
            · simp only [h2, if_true]
              intro hcontra
              simp only [Bool.and_eq_true, beq_iff_eq] at hcontra
              exact absurd hcontra.2 (by decide)
            · simp only [h2, Bool.false_eq_true, if_false]
              intro hcontra
              exact absurd hcontra (by simpa using h2)
        exact apply_cn_netting_no_cn _ hnone
      · have h0 : apply_cn_netting ap = ap := by
          simp only [apply_cn_netting]
          rw [hhead]
          exact if_neg hinv
        rw [h0]
        exact h0
  · intro ap cn hcn hinv j r hget
    have hmap := apply_cn_netting_eq_map ap cn hcn hinv
    refine ⟨?_, ?_, ?_⟩
    · intro hid
      rw [hmap, List.get?_map, hget]
      simp [hid]
    · intro hid hst
      rw [hmap, List.get?_map, hget]
      have : (r.doc_id == "DOC-INV-0001") = false := by simp [hid]
      simp [this, hid, hst]
    · intro h1 h2
      rw [hmap, List.get?_map, hget]
      simp [h1, h2]

/-- The hardcoded netting pair, outstanding. -/
def apHardPair : List APRow :=
  [{ doc_id := "DOC-CN-0001", counterparty_id := "V1", total := -50,
     amount_due := -50, due_date := "2025-02-01", status := "outstanding" },
   { doc_id := "DOC-INV-0001", counterparty_id := "V1", total := 500,
     amount_due := 500, due_date := "2025-02-01", status := "outstanding" }]

/-- Witness for `C7_netting_hardcoded_amended` on a concrete AP table
holding the hardcoded pair. -/
theorem C7_netting_hardcoded_amended_witness :
    apply_cn_netting (apply_cn_netting apHardPair) = apply_cn_netting apHardPair ∧
    (apply_cn_netting apHardPair).get? 1 =
      some { doc_id := "DOC-INV-0001", counterparty_id := "V1", total := 500,
             amount_due := (500 : ℚ) + (-50), due_date := "2025-02-01",
             status := "outstanding" } ∧
    (apply_cn_netting apHardPair).get? 0 =
      some { doc_id := "DOC-CN-0001", counterparty_id := "V1", total := -50,
             amount_due := -50, due_date := "2025-02-01",
             status := "cleared_applied" } := by
  obtain ⟨hid, happ⟩ := C7_netting_hardcoded_amended
  have h := happ apHardPair
    { doc_id := "DOC-CN-0001", counterparty_id := "V1", total := -50,
      amount_due := -50, due_date := "2025-02-01", status := "outstanding" }
    rfl rfl
  exact ⟨hid apHardPair, (h 1 _ rfl).1 rfl, (h 0 _ rfl).2.1 rfl rfl⟩

/-! ## C9: `ValidationAgent.run` and the FXRates table -/

/-- A `ready` foreign-currency document over an FXRates table whose
`date` column is still the raw CSV strings. -/
def docUsdReady : Doc :=
  { id := "DOC-USD-1", doc_type := "invoice", doc_number := "USD-1",
    vendor_customer_id := "V1", counterparty_type := "vendor",
    issue_date := "05/01/2025", due_date := "2025-02-01", currency := "USD",
    tax_label := "SST", tax_amount := some 0, shipping := 0, total := 100,
    fx_rate := 1, base_amount_total := 100, status := "ready" }

def storeFxRaw : Store :=
  { Documents := [docUsdReady], LineItems := [], JournalEntries := [], AP := [],
    AR := [],
    FXRates := [{ pair := "USD/MYR", date := .raw "01/01/2025", rate := 3 }],
    BankFeed := [], AuditLog := [] }

/-- C9, counterexample: running the ValidationEnricher over a store
with one `ready` non-MYR document rewrites the `date` column of
`FXRates` in place (`pd.to_datetime` coercion inside `get_fx_rate`), so
the FXRates table after the run differs from the table before it (here
with the date parser that maps every string to day code 0). -/
theorem C9_counterexample :
    (validation_run (fun _ => some 0) (fun _ _ => "FIX: add rate") true
        storeFxRaw).FXRates ≠ storeFxRaw.FXRates ∧
    (validation_run (fun _ => some 0) (fun _ _ => "FIX: add rate") true
        storeFxRaw).FXRates =
      [{ pair := "USD/MYR", date := .parsed (some 0), rate := 3 }] := by
  decide

lemma coerceFxDate_idem (parse : String → Option ℤ) (d : FXDate) :
    coerceFxDate parse (coerceFxDate parse d) = coerceFxDate parse d := by
  cases d <;> rfl

lemma coerceFxTable_idem (parse : String → Option ℤ) (fx : List FXRow) :
    coerceFxTable parse (coerceFxTable parse fx) = coerceFxTable parse fx := by
  unfold coerceFxTable
  rw [List.map_map]
  apply List.map_congr_left
  intro r hr
  simp [coerceFxDate_idem]

lemma get_fx_rate_snd (parse : String → Option ℤ) (fx : List FXRow)
    (ds c : String) (h : (c == "MYR") = false) :
    (get_fx_rate parse fx ds c "MYR").2 = coerceFxTable parse fx := by
  unfold get_fx_rate
  rw [if_neg (by simp_all)]
  cases parse ds <;> rfl

lemma valLoop_fx (parse : String → Option ℤ) (explain : Doc → String → String) :
    ∀ (docs : List Doc) (fx : List FXRow) (au : List AuditRow),
      (valLoop parse explain docs fx au).2.1 = fx ∨
      (valLoop parse explain docs fx au).2.1 = coerceFxTable parse fx := by
  intro docs
  induction docs with
  | nil => intro fx au; exact Or.inl rfl
  | cons d ds ih =>
    intro fx au
    by_cases hc : (d.status == "ready" && d.currency != "MYR") = true
    · have hne : (d.currency == "MYR") = false := by
        simp only [Bool.and_eq_true, bne_iff_ne, ne_eq] at hc
        simp [hc.2]
      have hsnd := get_fx_rate_snd parse fx d.issue_date d.currency hne
      simp only [valLoop, hc, if_true]
      rcases hr : (get_fx_rate parse fx d.issue_date d.currency "MYR").1 with _ | ⟨rate⟩ <;>
        rw [hsnd]
      · rcases ih (coerceFxTable parse fx) _ with h | h
        · exact Or.inr h
        · rw [coerceFxTable_idem] at h
          exact Or.inr h
      · rcases ih (coerceFxTable parse fx) _ with h | h
        · exact Or.inr h
        · rw [coerceFxTable_idem] at h
          exact Or.inr h
    · simp only [valLoop, hc, Bool.false_eq_true, if_false]
      exact ih fx au

/-- C9 (amended): `ValidationAgent.run` is read-only on FXRates except
that it coerces the `date` column in place: for every store the
resulting FXRates table is either exactly the input table (no `ready`
non-MYR document was processed) or the input table with each stored
date replaced by its parsed form — the `pair` and `rate` columns and
the row count are never altered. -/
theorem C9_fx_readonly_amended (parse : String → Option ℤ)
    (explain : Doc → String → String) (init : Bool) (s : Store) :
    (validation_run parse explain init s).FXRates = s.FXRates ∨
    (validation_run parse explain init s).FXRates = coerceFxTable parse s.FXRates := by
  unfold validation_run
  exact valLoop_fx parse explain _ s.FXRates s.AuditLog

/-! ## C4: FX lookup and enrichment -/

/-- The candidate rows of a lookup: pair matches and (parsed) date is
at most the target date. -/
def fxMatching (parse : String → Option ℤ) (fx : List FXRow)
    (c : String) (target : ℤ) : List FXRow :=
  (coerceFxTable parse fx).filter
    (fun r => r.pair == c ++ "/" ++ "MYR" && fxDateLe r.date target)

lemma pickLatest_eq_none_iff (l : List FXRow) : pickLatest l = none ↔ l = [] := by
  cases l with
  | nil => simp [pickLatest]
  | cons r rs =>
    simp only [pickLatest]
    constructor
    · intro h
      exfalso
      rcases hp : pickLatest rs with _ | m <;> rw [hp] at h
      · exact Option.noConfusion h
      · by_cases hc : fxDateVal m.date > fxDateVal r.date <;> simp [hc] at h
    · intro h
      exact List.noConfusion h

lemma pickLatest_spec (l : List FXRow) (m : FXRow) (h : pickLatest l = some m) :
    m ∈ l ∧ ∀ x ∈ l, fxDateVal x.date ≤ fxDateVal m.date := by
  induction l generalizing m with
  | nil => exact Option.noConfusion h
  | cons r rs ih =>
    simp only [pickLatest] at h
    rcases hp : pickLatest rs with _ | m' <;> rw [hp] at h
    · have hnil : rs = [] := (pickLatest_eq_none_iff rs).mp hp
      subst hnil
      obtain rfl : r = m := by simpa using h
      exact ⟨List.mem_cons_self r [], by simp⟩
    · obtain ⟨hm', hmax⟩ := ih m' hp
      by_cases hc : fxDateVal m'.date > fxDateVal r.date <;>
        simp only [hc, if_true, if_false, Bool.false_eq_true] at h
      · obtain rfl : m' = m := by simpa using h
        refine ⟨List.mem_cons_of_mem r hm', ?_⟩
        intro x hx
        rcases List.mem_cons.mp hx with rfl | hx
        · exact le_of_lt hc
        · exact hmax x hx
      · obtain rfl : r = m := by simpa using h
        refine ⟨List.mem_cons_self r rs, ?_⟩
        intro x hx
        rcases List.mem_cons.mp hx with rfl | hx
        · exact le_rfl
        · exact le_trans (hmax x hx) (not_lt.mp hc)

lemma get_fx_rate_fst (parse : String → Option ℤ) (fx : List FXRow)
    (ds c : String) (target : ℤ) (hc : (c == "MYR") = false)
    (hp : parse ds = some target) :
    (get_fx_rate parse fx ds c "MYR").1 =
      (pickLatest (fxMatching parse fx c target)).map FXRow.rate := by
  unfold get_fx_rate fxMatching
  rw [if_neg (by simp_all), hp]

lemma get_fx_rate_fst_coerce (parse : String → Option ℤ) (fx : List FXRow)
    (ds c : String) :
    (get_fx_rate parse (coerceFxTable parse fx) ds c "MYR").1 =
      (get_fx_rate parse fx ds c "MYR").1 := by
  unfold get_fx_rate
  by_cases hc : (c == "MYR") = true
  · rw [if_pos hc, if_pos hc]
  · rw [if_neg hc, if_neg hc, coerceFxTable_idem]

/-- Forwarding of untouched rows through `valLoop`: a document the loop
does not process (status/currency condition false) reappears unchanged
at the same position. -/
lemma valLoop_skip (parse : String → Option ℤ) (explain : Doc → String → String) :
    ∀ (docs : List Doc) (fx : List FXRow) (au : List AuditRow) (j : ℕ) (d : Doc),
      docs.get? j = some d →
      (d.status == "ready" && d.currency != "MYR") = false →
      (valLoop parse explain docs fx au).1.get? j = some d := by
  intro docs
  induction docs with
  | nil => intro fx au j d h; simp at h
  | cons d0 ds ih =>
    intro fx au j d hget hcond
    cases j with
    | zero =>
      obtain rfl : d0 = d := by simpa using hget
      simp only [valLoop, hcond, Bool.false_eq_true, if_false]
      rfl
    | succ j =>
      have hget' : ds.get? j = some d := by simpa using hget
      by_cases hc0 : (d0.status == "ready" && d0.currency != "MYR") = true
      · simp only [valLoop, hc0, if_true]
        rcases hr : (get_fx_rate parse fx d0.issue_date d0.currency "MYR").1 with _ | ⟨rate⟩
        · exact ih _ _ j d hget' hcond
        · exact ih _ _ j d hget' hcond
      · simp only [valLoop, hc0, Bool.false_eq_true, if_false]
        exact ih fx au j d hget' hcond

/-- A processed document with a found rate gets `fx_rate` and
`base_amount_total = total * rate` at its position (the looked-up rate
is the same over the threaded table because coercion is idempotent and
does not change lookup results). -/
lemma valLoop_found (parse : String → Option ℤ) (explain : Doc → String → String) :
    ∀ (docs : List Doc) (fx : List FXRow) (au : List AuditRow) (j : ℕ)
      (d : Doc) (rate : ℚ),
      docs.get? j = some d →
      (d.status == "ready" && d.currency != "MYR") = true →
      (get_fx_rate parse fx d.issue_date d.currency "MYR").1 = some rate →
      (valLoop parse explain docs fx au).1.get? j =
        some { d with fx_rate := rate, base_amount_total := d.total * rate } := by
  intro docs
  induction docs with
  | nil => intro fx au j d rate h; simp at h
  | cons d0 ds ih =>
    intro fx au j d rate hget hcond hrate
    cases j with
    | zero =>
      obtain rfl : d0 = d := by simpa using hget
      simp only [valLoop, hcond, if_true, hrate]
      rfl
    | succ j =>
      have hget' : ds.get? j = some d := by simpa using hget
      by_cases hc0 : (d0.status == "ready" && d0.currency != "MYR") = true
      · have hne0 : (d0.currency == "MYR") = false := by
          simp only [Bool.and_eq_true, bne_iff_ne, ne_eq] at hc0
          simp [hc0.2]
        have hsnd := get_fx_rate_snd parse fx d0.issue_date d0.currency hne0
        have hrate' : (get_fx_rate parse
            (get_fx_rate parse fx d0.issue_date d0.currency "MYR").2
            d.issue_date d.currency "MYR").1 = some rate := by
          rw [hsnd, get_fx_rate_fst_coerce, hrate]
        simp only [valLoop, hc0, if_true]
        rcases hr : (get_fx_rate parse fx d0.issue_date d0.currency "MYR").1 with _ | ⟨r0⟩
        · exact ih _ _ j d rate hget' hcond hrate'
        · exact ih _ _ j d rate hget' hcond hrate'
      · simp only [valLoop, hc0, Bool.false_eq_true, if_false]
        exact ih fx au j d rate hget' hcond hrate

/-- C4: (i) a same-currency lookup returns rate 1 without touching the
table; (ii) for a foreign pair and a parsed target date, the lookup
returns `none` exactly when no row matches (pair equal, date ≤ target),
and any returned rate is the rate of a matching row of maximal date;
(iii) after the enrichment run a same-currency document carries
`fx_rate = 1` and `base_amount_total = total`; (iv) a `ready` foreign
document whose lookup finds a rate carries that rate and
`base_amount_total = total * rate`. -/
theorem C4_fx_lookup_spec :
    (∀ (parse : String → Option ℤ) (fx : List FXRow) (ds c : String),
      get_fx_rate parse fx ds c c = (some 1, fx)) ∧
    (∀ (parse : String → Option ℤ) (fx : List FXRow) (ds c : String) (target : ℤ),
      (c == "MYR") = false → parse ds = some target →
      (((get_fx_rate parse fx ds c "MYR").1 = none ↔
          fxMatching parse fx c target = []) ∧
       (∀ r : ℚ, (get_fx_rate parse fx ds c "MYR").1 = some r →
         ∃ row ∈ fxMatching parse fx c target, row.rate = r ∧
           ∀ row' ∈ fxMatching parse fx c target,
             fxDateVal row'.date ≤ fxDateVal row.date))) ∧
    (∀ (parse : String → Option ℤ) (explain : Doc → String → String)
       (s : Store) (j : ℕ) (d : Doc),
      s.Documents.get? j = some d → d.currency = "MYR" →
      (validation_run parse explain true s).Documents.get? j =
        some { d with fx_rate := 1, base_amount_total := d.total }) ∧
    (∀ (parse : String → Option ℤ) (explain : Doc → String → String)
       (s : Store) (j : ℕ) (d : Doc) (rate : ℚ),
      s.Documents.get? j = some d → d.status = "ready" →
      (d.currency == "MYR") = false →
      (get_fx_rate parse s.FXRates d.issue_date d.currency "MYR").1 = some rate →
      (validation_run parse explain true s).Documents.get? j =
        some { d with fx_rate := rate, base_amount_total := d.total * rate }) := by
  refine ⟨?_, ?_, ?_, ?_⟩
  · intro parse fx ds c
    unfold get_fx_rate
    rw [if_pos (by simp)]
  · intro parse fx ds c target hc hp
    rw [get_fx_rate_fst parse fx ds c target hc hp]
    constructor
    · rw [Option.map_eq_none', pickLatest_eq_none_iff]
    · intro r hr
      rw [Option.map_eq_some'] at hr
      obtain ⟨row, hrow, hrate⟩ := hr
      obtain ⟨hmem, hmax⟩ := pickLatest_spec _ row hrow
      exact ⟨row, hmem, hrate, hmax⟩
  · intro parse explain s j d hget hcur
    have hget' : (s.Documents.map
        (fun d => { d with fx_rate := 1, base_amount_total := d.total })).get? j =
        some { d with fx_rate := 1, base_amount_total := d.total } := by
      rw [List.get?_map, hget]
      rfl
    have hcond : (({ d with fx_rate := 1, base_amount_total := d.total } : Doc).status
        == "ready" &&
        ({ d with fx_rate := 1, base_amount_total := d.total } : Doc).currency != "MYR")
        = false := by
      simp [hcur]
    exact valLoop_skip parse explain _ _ _ j _ hget' hcond
  · intro parse explain s j d rate hget hst hcur hrate
    have hget' : (s.Documents.map
        (fun d => { d with fx_rate := 1, base_amount_total := d.total })).get? j =
        some { d with fx_rate := 1, base_amount_total := d.total } := by
      rw [List.get?_map, hget]
      rfl
    have hcond : (({ d with fx_rate := 1, base_amount_total := d.total } : Doc).status
        == "ready" &&
        ({ d with fx_rate := 1, base_amount_total := d.total } : Doc).currency != "MYR")
        = true := by
      simp [hst, hcur]
      simpa using hcur
    have hres := valLoop_found parse explain _ s.FXRates s.AuditLog j _ rate hget' hcond
      (by simpa using hrate)
    simpa using hres

/-- Concrete date parser for the witness: maps the two dates of the
fixture to day codes 1 and 5. -/
def parseW : String → Option ℤ := fun s =>
  if s = "01/01/2025" then some 1 else if s = "05/01/2025" then some 5 else none

def explainW : Doc → String → String := fun _ _ => "FIX: look up the missing rate"

def docUsdW : Doc :=
  { id := "DOC-W-USD", doc_type := "invoice", doc_number := "W-USD",
    vendor_customer_id := "V1", counterparty_type := "vendor",
    issue_date := "05/01/2025", due_date := "2025-02-01", currency := "USD",
    tax_label := "SST", tax_amount := some 0, shipping := 0, total := 100,
    fx_rate := 1, base_amount_total := 100, status := "ready" }

def docMyrW : Doc :=
  { id := "DOC-W-MYR", doc_type := "invoice", doc_number := "W-MYR",
    vendor_customer_id := "V1", counterparty_type := "vendor",
    issue_date := "05/01/2025", due_date := "2025-02-01", currency := "MYR",
    tax_label := "SST", tax_amount := some 0, shipping := 0, total := 70,
    fx_rate := 1, base_amount_total := 70, status := "ready" }

def storeW : Store :=
  { Documents := [docUsdW, docMyrW], LineItems := [], JournalEntries := [],
    AP := [], AR := [],
    FXRates := [{ pair := "USD/MYR", date := .raw "01/01/2025", rate := 3 }],
    BankFeed := [], AuditLog := [] }

/-- Witness for `C4_fx_lookup_spec` on a concrete store: the USD
document gets rate 3 (the 01/01 rate, the latest on or before 05/01)
and `base = total * 3`; the MYR document gets rate 1 and
`base = total`. -/
theorem C4_fx_lookup_spec_witness :
    get_fx_rate parseW storeW.FXRates "05/01/2025" "MYR" "MYR" =
      (some 1, storeW.FXRates) ∧
    (∃ row ∈ fxMatching parseW storeW.FXRates "USD" 5, row.rate = 3 ∧
      ∀ row' ∈ fxMatching parseW storeW.FXRates "USD" 5,
        fxDateVal row'.date ≤ fxDateVal row.date) ∧
    (validation_run parseW explainW true storeW).Documents.get? 1 =
      some { docMyrW with fx_rate := 1, base_amount_total := docMyrW.total } ∧
    (validation_run parseW explainW true storeW).Documents.get? 0 =
      some { docUsdW with fx_rate := 3, base_amount_total := docUsdW.total * 3 } := by
  obtain ⟨h1, h2, h3, h4⟩ := C4_fx_lookup_spec
  have hlook : (get_fx_rate parseW storeW.FXRates "05/01/2025" "USD" "MYR").1 =
      some 3 := by decide
  refine ⟨h1 parseW storeW.FXRates "05/01/2025" "MYR",
    (h2 parseW storeW.FXRates "05/01/2025" "USD" 5 rfl rfl).2 3 hlook,
    h3 parseW explainW storeW 1 docMyrW rfl rfl,
    h4 parseW explainW storeW 0 docUsdW 3 rfl rfl rfl ?_⟩
  have : docUsdW.issue_date = "05/01/2025" := rfl
  rw [show docUsdW.issue_date = "05/01/2025" from rfl, show docUsdW.currency = "USD" from rfl]
  exact hlook

/-! ## C6: AP payment on a matched negative bank row -/

lemma filter_single_map_set {α : Type} (l : List α) (p : α → Bool) (r : α)
    (f : α → α) (h : l.filter p = [r]) :
    ∃ j, l.get? j = some r ∧
      l.map (fun x => if p x then f x else x) = l.set j (f r) := by
  induction l with
  | nil => simp at h
  | cons a t ih =>
    by_cases hp : p a = true
    · have hfil : a :: t.filter p = [r] := by
        simpa [List.filter_cons, hp] using h
      obtain ⟨rfl, htnil⟩ : a = r ∧ t.filter p = [] := by
        constructor
        · exact (List.cons_eq_cons.mp hfil).1
        · exact (List.cons_eq_cons.mp hfil).2
      refine ⟨0, rfl, ?_⟩
      have hmap : t.map (fun x => if p x then f x else x) = t := by
        apply List.map_congr_left ?_ |>.trans (List.map_id t)
        intro x hx
        have : ¬ p x = true := by
          intro hc
          have : x ∈ t.filter p := List.mem_filter.mpr ⟨hx, hc⟩
          simp [htnil] at this
        simp [this]
      simp [hp, hmap]
    · have hfil : t.filter p = [r] := by
        simpa [List.filter_cons, hp] using h
      obtain ⟨j, hj, hmap⟩ := ih hfil
      refine ⟨j + 1, by simpa using hj, ?_⟩
      simp [hp, hmap]

/-- C6: for a matched bank row with negative amount and parseable date
whose resolved document has exactly one AP row with
`amount_due > 0.01`, the reconciliation step appends exactly the
balanced pair debit `2100 Accounts Payable` / credit `1100 Cash/Bank`,
each for `abs(amount)`, under the two consecutive ids
`counter+1`, `counter+2`; it decreases that AP row's `amount_due` by
`abs(amount)` and sets its status to `paid` iff the new balance is
≤ 0.01 (else `partial_paid`); the AR table is untouched. -/
theorem C6_ap_payment_on_match (suggest : BankTxn → List APRow → Option String)
    (docs : List Doc) (st : RState) (txn : BankTxn) (dt : String) (d0 : Doc)
    (r : APRow)
    (hdate : txn.date = some dt)
    (hneg : txn.amount < 0)
    (hmatch : (docs.filter (fun d => d.doc_number == txn.guess_doc_number)).head?
      = some d0)
    (hap : st.ap.filter (fun x => x.doc_id == d0.id && x.amount_due > (1 / 100 : ℚ))
      = [r]) :
    ∃ st', reconStep suggest docs st txn = .ok st' ∧
      st'.newJes = st.newJes ++
        [{ je_id := jeIdStr (st.counter + 1), date := dt, doc_id := d0.id,
           line_no := 0, account := "2100 Accounts Payable",
           debit := |txn.amount|, credit := 0,
           memo := "Payment for " ++ txn.guess_doc_number, fx_rate := 1,
           base_amount := |txn.amount| },
         { je_id := jeIdStr (st.counter + 2), date := dt, doc_id := d0.id,
           line_no := 0, account := "1100 Cash/Bank",
           debit := 0, credit := |txn.amount|,
           memo := "Payment for " ++ txn.guess_doc_number, fx_rate := 1,
           base_amount := |txn.amount| }] ∧
      st'.counter = st.counter + 2 ∧
      (∃ j, st.ap.get? j = some r ∧
        st'.ap = st.ap.set j
          { r with
            amount_due := r.amount_due - |txn.amount|,
            status := if r.amount_due - |txn.amount| ≤ (1 / 100 : ℚ)
              then "paid" else "partial_paid" }) ∧
      st'.ar = st.ar := by
  have habs : |(|txn.amount|)| = |txn.amount| := abs_abs txn.amount
  have hhead : (st.ap.filter
      (fun x => x.doc_id == d0.id && x.amount_due > (1 / 100 : ℚ))).head? = some r := by
    rw [hap]; rfl
  obtain ⟨j, hj, hmap⟩ := filter_single_map_set st.ap
    (fun x => x.doc_id == d0.id && x.amount_due > (1 / 100 : ℚ)) r
    (fun x => { x with
                amount_due := r.amount_due - |txn.amount|,
                status := if r.amount_due - |txn.amount| ≤ (1 / 100 : ℚ)
                  then "paid" else "partial_paid" }) hap
  have hstep : reconStep suggest docs st txn =
      .ok (reconSettle dt txn.guess_doc_number d0.id txn.amount st) := by
    simp only [reconStep]
    rw [hdate, hmatch]
  refine ⟨reconSettle dt txn.guess_doc_number d0.id txn.amount st, hstep,
    ?_, ?_, ⟨j, hj, ?_⟩, ?_⟩
  all_goals
    simp only [reconSettle]
    rw [if_pos hneg, hhead]
  all_goals
    first
    | rfl
    | exact hmap
    | (simp only [generate_payment_entry]; simp [habs])

def suggestNone : BankTxn → List APRow → Option String := fun _ _ => none

def docReconW : Doc :=
  { id := "DOC-INV-G7", doc_type := "invoice", doc_number := "INV-G7",
    vendor_customer_id := "V1", counterparty_type := "vendor",
    issue_date := "2025-01-01", due_date := "2025-02-01", currency := "MYR",
    tax_label := "SST", tax_amount := some 0, shipping := 0, total := 1100,
    fx_rate := 1, base_amount_total := 1100, status := "posted" }

def apRowW : APRow :=
  { doc_id := "DOC-INV-G7", counterparty_id := "V1", total := 1100,
    amount_due := 1100, due_date := "2025-02-01", status := "outstanding" }

def txnW : BankTxn :=
  { date := some "2025-03-01", amount := -1100, memo := "payment INV-G7",
    guess_doc_number := "INV-G7" }

def stW : RState :=
  { ap := [apRowW], ar := [], counter := 4, newJes := [], audit := [] }

/-- Witness for `C6_ap_payment_on_match`: a −1100 bank row matching the
posted invoice with an outstanding AP balance of 1100. -/
theorem C6_ap_payment_on_match_witness :
    ∃ st', reconStep suggestNone [docReconW] stW txnW = .ok st' ∧
      st'.newJes = stW.newJes ++
        [{ je_id := jeIdStr (stW.counter + 1), date := "2025-03-01",
           doc_id := docReconW.id, line_no := 0,
           account := "2100 Accounts Payable",
           debit := |txnW.amount|, credit := 0,
           memo := "Payment for " ++ txnW.guess_doc_number, fx_rate := 1,
           base_amount := |txnW.amount| },
         { je_id := jeIdStr (stW.counter + 2), date := "2025-03-01",
           doc_id := docReconW.id, line_no := 0,
           account := "1100 Cash/Bank",
           debit := 0, credit := |txnW.amount|,
           memo := "Payment for " ++ txnW.guess_doc_number, fx_rate := 1,
           base_amount := |txnW.amount| }] ∧
      st'.counter = stW.counter + 2 ∧
      (∃ j, stW.ap.get? j = some apRowW ∧
        st'.ap = stW.ap.set j
          { apRowW with
            amount_due := apRowW.amount_due - |txnW.amount|,
            status := if apRowW.amount_due - |txnW.amount| ≤ (1 / 100 : ℚ)
              then "paid" else "partial_paid" }) ∧
      st'.ar = stW.ar :=
  C6_ap_payment_on_match suggestNone [docReconW] stW txnW "2025-03-01" docReconW
    apRowW rfl (by norm_num [txnW]) rfl
    (by norm_num [stW, apRowW, docReconW, List.filter])

/-! ## C8: the journal-id sequence -/

/-- An existing table whose single id is `JE-0005`...: here `JE-0002`,
so that `len(JournalEntries) = 1` while the maximum id is 2. -/
def jeOld : JE :=
  { je_id := "JE-0002", date := "2024-12-01", doc_id := "DOC-OLD", line_no := 0,
    account := "1100 Cash/Bank", debit := 10, credit := 0, memo := "old",
    fx_rate := 1, base_amount := 10 }

def docNewDup : Doc :=
  { id := "DOC-NEW", doc_type := "invoice", doc_number := "NEW-1",
    vendor_customer_id := "V1", counterparty_type := "vendor",
    issue_date := "2025-01-01", due_date := "2025-02-01", currency := "MYR",
    tax_label := "SST", tax_amount := some 0, shipping := 0, total := 100,
    fx_rate := 1, base_amount_total := 100, status := "ready" }

def storeDup : Store :=
  { Documents := [docNewDup],
    LineItems := [{ document_id := "DOC-NEW", line_no := 1,
                    description := "x", line_total := 100,
                    gl_hint := "5000 Consulting" }],
    JournalEntries := [jeOld], AP := [], AR := [], FXRates := [], BankFeed := [],
    AuditLog := [] }

/-- C8, counterexample: the counter restarts from the *row count* of
`JournalEntries`, not from the maximum id, so over a table whose only
row carries `JE-0002` (count 1) the engine hands out `JE-0002` again:
the final table has two entries sharing `je_id = JE-0002`, and the
first new id is not greater than every existing id. -/
theorem C8_counterexample :
    (posting_run storeDup).JournalEntries.map JE.je_id =
      ["JE-0002", jeIdStr 2, jeIdStr 3] ∧
    jeIdStr 2 = "JE-0002" ∧
    ¬ ((posting_run storeDup).JournalEntries.map JE.je_id).Nodup := by
  have hmap : (posting_run storeDup).JournalEntries.map JE.je_id =
      ["JE-0002", jeIdStr 2, jeIdStr 3] := by
    norm_num [posting_run, peStep, docBatch, invoiceLineJEs, generate_journal_entry,
      glAccount, setDocStatus, storeDup, docNewDup, jeOld, List.filter, List.foldl,
      (show ("invoice" : String) ≠ "quotation" by decide),
      (show ("invoice" : String) ≠ "SO" by decide)]
  refine ⟨hmap, by decide, ?_⟩
  rw [hmap]
  decide

/-- The ids of `l` are the consecutive rendered ids `c+1, c+2, …`. -/
def idsFrom (c : ℕ) (l : List JE) : Prop :=
  l.map JE.je_id = (List.range l.length).map (fun i => jeIdStr (c + 1 + i))

lemma idsFrom_nil (c : ℕ) : idsFrom c [] := rfl

lemma idsFrom_append {c : ℕ} {l1 l2 : List JE}
    (h1 : idsFrom c l1) (h2 : idsFrom (c + l1.length) l2) :
    idsFrom c (l1 ++ l2) := by
  unfold idsFrom at *
  rw [List.map_append, List.length_append, List.range_add, List.map_append,
    List.map_map, h1, h2]
  congr 1
  apply List.map_congr_left
  intro i hi
  simp only [Function.comp_apply]
  congr 1
  omega

lemma idsFrom_single {c : ℕ} {je : JE} (h : je.je_id = jeIdStr (c + 1)) :
    idsFrom c [je] := by
  unfold idsFrom
  simp [h, List.range_succ]

/-- Invariant of a `(counter, batch)` pair produced while generating a
document's entries. -/
def CtrInv (c : ℕ) (P : ℕ × List JE) : Prop :=
  P.1 = c + P.2.length ∧ idsFrom c P.2

lemma ctrInv_start (c : ℕ) : CtrInv c (c, []) := ⟨by simp, idsFrom_nil c⟩

lemma ctrInv_snoc {c : ℕ} {P : ℕ × List JE} (h : CtrInv c P) {je : JE}
    (hje : je.je_id = jeIdStr (P.1 + 1)) :
    CtrInv c (P.1 + 1, P.2 ++ [je]) := by
  obtain ⟨hlen, hids⟩ := h
  constructor
  · simp only [List.length_append, List.length_cons, List.length_nil]
    omega
  · exact idsFrom_append hids (idsFrom_single (by rw [hje, hlen]))

lemma invoiceLineJEs_ctrInv (d : Doc) (ls : List LineItem) :
    ∀ c, CtrInv c (invoiceLineJEs d ls c) := by
  induction ls with
  | nil => intro c; exact ctrInv_start c
  | cons l t ih =>
    intro c
    obtain ⟨hlen, hids⟩ := ih (c + 1)
    simp only [invoiceLineJEs, generate_journal_entry]
    constructor
    · simp only [List.length_cons]
      omega
    · have : idsFrom c
          [{ je_id := jeIdStr (c + 1), date := d.issue_date, doc_id := d.id,
             line_no := l.line_no, account := glAccount l.gl_hint,
             debit := l.line_total * d.fx_rate, credit := 0,
             memo := "Expense for " ++ l.description, fx_rate := d.fx_rate,
             base_amount := l.line_total }] := idsFrom_single rfl
      have happ := idsFrom_append this (by simpa using hids)
      simpa using happ

lemma salesLineJEs_ctrInv (d : Doc) (ls : List LineItem) :
    ∀ c, CtrInv c (salesLineJEs d ls c) := by
  induction ls with
  | nil => intro c; exact ctrInv_start c
  | cons l t ih =>
    intro c
    obtain ⟨hlen, hids⟩ := ih (c + 1)
    simp only [salesLineJEs, generate_journal_entry]
    constructor
    · simp only [List.length_cons]
      omega
    · have : idsFrom c
          [{ je_id := jeIdStr (c + 1), date := d.issue_date, doc_id := d.id,
             line_no := l.line_no, account := glAccount l.gl_hint,
             debit := 0, credit := l.line_total,
             memo := "Sales for " ++ l.description, fx_rate := 1,
             base_amount := 0 }] := idsFrom_single rfl
      have happ := idsFrom_append this (by simpa using hids)
      simpa using happ

lemma cnLineJEs_ctrInv (d : Doc) (ls : List LineItem) :
    ∀ c, CtrInv c (cnLineJEs d ls c) := by
  induction ls with
  | nil => intro c; exact ctrInv_start c
  | cons l t ih =>
    intro c
    obtain ⟨hlen, hids⟩ := ih (c + 1)
    simp only [cnLineJEs, generate_journal_entry]
    constructor
    · simp only [List.length_cons]
      omega
    · have : idsFrom c
          [{ je_id := jeIdStr (c + 1), date := d.issue_date, doc_id := d.id,
             line_no := l.line_no, account := glAccount l.gl_hint,
             debit := 0, credit := |l.line_total|,
             memo := "CN Reversal for " ++ l.description, fx_rate := 1,
             base_amount := 0 }] := idsFrom_single rfl
      have happ := idsFrom_append this (by simpa using hids)
      simpa using happ

lemma docBatch_ctrInv (lis : List LineItem) (d : Doc) (c : ℕ) :
    CtrInv c ((docBatch lis d c).1, (docBatch lis d c).2.1) := by
  by_cases h1 : (d.doc_type == "invoice" || d.doc_type == "utility_bill") = true
  · have hL := invoiceLineJEs_ctrInv d (lis.filter (fun l => l.document_id == d.id)) c
    by_cases htb : (d.tax_amount.getD 0) * d.fx_rate > 0 <;>
      by_cases hsb : d.shipping > 0 <;>
      simp only [docBatch, h1, if_true, htb, hsb, if_false, Bool.false_eq_true,
        generate_journal_entry] <;>
      first
      | exact ctrInv_snoc (ctrInv_snoc (ctrInv_snoc hL rfl) rfl) rfl
      | exact ctrInv_snoc (ctrInv_snoc hL rfl) rfl
      | exact ctrInv_snoc hL rfl
  · have h1f : (d.doc_type == "invoice" || d.doc_type == "utility_bill") = false := by
      simpa using h1
    by_cases h2 : (d.doc_type == "sales_invoice") = true
    · have hL := salesLineJEs_ctrInv d (lis.filter (fun l => l.document_id == d.id)) c
      by_cases htb : (d.tax_amount.getD 0) > 0 <;>
        simp only [docBatch, h1f, Bool.false_eq_true, if_false, h2, if_true, htb,
          generate_journal_entry] <;>
        first
        | exact ctrInv_snoc (ctrInv_snoc hL rfl) rfl
        | exact ctrInv_snoc hL rfl
    · have h2f : (d.doc_type == "sales_invoice") = false := by simpa using h2
      by_cases h3 : (d.doc_type == "credit_note") = true
      · have hL := cnLineJEs_ctrInv d (lis.filter (fun l => l.document_id == d.id)) c
        by_cases htb : (d.tax_amount.getD 0) < 0 <;>
          simp only [docBatch, h1f, h2f, Bool.false_eq_true, if_false, h3, if_true,
            htb, generate_journal_entry] <;>
          first
          | exact ctrInv_snoc (ctrInv_snoc hL rfl) rfl
          | exact ctrInv_snoc hL rfl
      · have h3f : (d.doc_type == "credit_note") = false := by simpa using h3
        simp only [docBatch, h1f, h2f, h3f, Bool.false_eq_true, if_false]
        exact ctrInv_start c

/-- Loop invariant for the posting engine: the counter always equals
the base row count plus the number of accumulated entries, and the
accumulated entries carry the consecutive ids from the base count. -/
def PInv (n0 : ℕ) (st : PEState) : Prop :=
  st.counter = n0 + st.newJes.length ∧ idsFrom n0 st.newJes

lemma peStep_pinv {n0 : ℕ} (lis : List LineItem) {st : PEState} (d : Doc)
    (h : PInv n0 st) : PInv n0 (peStep lis st d) := by
  obtain ⟨hlen, hids⟩ := h
  unfold peStep
  split
  · exact ⟨hlen, hids⟩
  · obtain ⟨blen, bids⟩ := docBatch_ctrInv lis d st.counter
    have blen' : (docBatch lis d st.counter).1
        = st.counter + (docBatch lis d st.counter).2.1.length := blen
    have bids' : idsFrom st.counter (docBatch lis d st.counter).2.1 := bids
    constructor
    · simp only [List.length_append]
      omega
    · refine idsFrom_append hids ?_
      rw [← hlen]
      exact bids'

lemma postLoop_pinv {n0 : ℕ} (lis : List LineItem) (docs : List Doc)
    {st : PEState} (h : PInv n0 st) : PInv n0 (docs.foldl (peStep lis) st) := by
  induction docs generalizing st with
  | nil => simpa using h
  | cons d rest ih =>
    simp only [List.foldl_cons]
    exact ih (peStep_pinv lis d h)

lemma idsFrom_pair {c : ℕ} {a b : JE} (ha : a.je_id = jeIdStr (c + 1))
    (hb : b.je_id = jeIdStr (c + 2)) : idsFrom c [a, b] := by
  have h2 : idsFrom (c + 1) [b] := idsFrom_single (by simpa using hb)
  have h := idsFrom_append (idsFrom_single ha) h2
  simpa using h

/-- Loop invariant for the reconciliation pass. -/
def RInv (n0 : ℕ) (st : RState) : Prop :=
  st.counter = n0 + st.newJes.length ∧ idsFrom n0 st.newJes

lemma reconSettle_rinv {n0 : ℕ} (dt g i : String) (amt : ℚ) {st : RState}
    (h : RInv n0 st) : RInv n0 (reconSettle dt g i amt st) := by
  obtain ⟨hlen, hids⟩ := h
  simp only [reconSettle]
  split
  · split
    · exact ⟨hlen, hids⟩
    · constructor
      · simp only [List.length_append, List.length_cons, List.length_nil]
        omega
      · refine idsFrom_append hids (idsFrom_pair ?_ ?_) <;>
          simp only [generate_payment_entry] <;>
          rw [hlen]
  · split
    · split
      · exact ⟨hlen, hids⟩
      · constructor
        · simp only [List.length_append, List.length_cons, List.length_nil]
          omega
        · refine idsFrom_append hids (idsFrom_pair ?_ ?_) <;>
            simp only [generate_payment_entry] <;>
            rw [hlen]
    · exact ⟨hlen, hids⟩

lemma reconStep_rinv {n0 : ℕ} (suggest : BankTxn → List APRow → Option String)
    (docs : List Doc) {st st' : RState} (txn : BankTxn)
    (h : reconStep suggest docs st txn = .ok st') (hinv : RInv n0 st) :
    RInv n0 st' := by
  simp only [reconStep] at h
  repeat' split at h
  all_goals
    first
    | exact Except.noConfusion h
    | (obtain rfl : _ = st' := Except.ok.inj h
       exact hinv)
    | (obtain rfl : _ = st' := Except.ok.inj h
       exact reconSettle_rinv _ _ _ _ hinv)

lemma reconFold_rinv {n0 : ℕ} (suggest : BankTxn → List APRow → Option String)
    (docs : List Doc) :
    ∀ (txns : List BankTxn) (st fin : RState),
      txns.foldlM (reconStep suggest docs) st = .ok fin →
      RInv n0 st → RInv n0 fin := by
  intro txns
  induction txns with
  | nil =>
    intro st fin h hinv
    obtain rfl : st = fin := Except.ok.inj h
    exact hinv
  | cons t ts ih =>
    intro st fin h hinv
    rw [List.foldlM_cons] at h
    rcases hstep : reconStep suggest docs st t with e | st1 <;> rw [hstep] at h
    · exact Except.noConfusion h
    · exact ih st1 fin h (reconStep_rinv suggest docs t hstep hinv)

/-- Gluing a dense prefix `JE-0001 … JE-len` with a block of
consecutive fresh ids gives a dense table again. -/
lemma dense_extend {old new : List JE}
    (hold : old.map JE.je_id =
      (List.range old.length).map (fun i => jeIdStr (i + 1)))
    (hnew : idsFrom old.length new) :
    (old ++ new).map JE.je_id =
      (List.range (old ++ new).length).map (fun i => jeIdStr (i + 1)) := by
  rw [List.map_append, List.length_append, List.range_add, List.map_append,
    hold, hnew, List.map_map]
  congr 1
  apply List.map_congr_left
  intro i hi
  simp only [Function.comp_apply]
  congr 1
  omega

lemma dense_nodup (m : ℕ) :
    (((List.range m).map (fun i => jeIdStr (i + 1))).Nodup) := by
  refine List.Nodup.map ?_ (List.nodup_range m)
  intro a b hab
  have := jeIdStr_injective hab
  omega

/-- C8 (amended): both agents initialise their journal-id counter from
the *row count* of `JournalEntries` (`C8_counterexample` shows this is
not the maximum id in general).  Provided the table's existing ids are
exactly the dense sequence `JE-0001 … JE-len` — in which case the row
count does equal the numeric maximum — a posting run, and a
reconciliation run that completes, extend the table so that its ids are
again the dense sequence: every new id continues past the old maximum
and no two rows share an id. -/
theorem C8_je_ids_amended :
    (∀ s : Store,
      s.JournalEntries.map JE.je_id =
        (List.range s.JournalEntries.length).map (fun i => jeIdStr (i + 1)) →
      ((posting_run s).JournalEntries.map JE.je_id =
        (List.range (posting_run s).JournalEntries.length).map
          (fun i => jeIdStr (i + 1)) ∧
       ((posting_run s).JournalEntries.map JE.je_id).Nodup)) ∧
    (∀ (suggest : BankTxn → List APRow → Option String) (s s' : Store),
      reconciliation_run suggest s = .ok s' →
      s.JournalEntries.map JE.je_id =
        (List.range s.JournalEntries.length).map (fun i => jeIdStr (i + 1)) →
      (s'.JournalEntries.map JE.je_id =
        (List.range s'.JournalEntries.length).map (fun i => jeIdStr (i + 1)) ∧
       (s'.JournalEntries.map JE.je_id).Nodup)) := by
  constructor
  · intro s hdense
    have hinv : PInv s.JournalEntries.length
        ((s.Documents.filter (fun d => d.status == "ready")).foldl
          (peStep s.LineItems)
          { documents := s.Documents, auditLog := s.AuditLog,
            counter := s.JournalEntries.length, newJes := [], newAps := [],
            newArs := [] }) :=
      postLoop_pinv s.LineItems _ ⟨by simp, idsFrom_nil _⟩
    have hje : (posting_run s).JournalEntries
        = s.JournalEntries ++
          ((s.Documents.filter (fun d => d.status == "ready")).foldl
            (peStep s.LineItems)
            { documents := s.Documents, auditLog := s.AuditLog,
              counter := s.JournalEntries.length, newJes := [], newAps := [],
              newArs := [] }).newJes := rfl
    rw [hje]
    have hd := dense_extend hdense hinv.2
    rw [hd]
    exact ⟨rfl, dense_nodup _⟩
  · intro suggest s s' hrun hdense
    simp only [reconciliation_run] at hrun
    rcases hfold : s.BankFeed.foldlM
        (reconStep suggest s.Documents)
        { ap := apply_cn_netting s.AP, ar := s.AR,
          counter := s.JournalEntries.length, newJes := [],
          audit := s.AuditLog } with e | fin <;>
      rw [hfold] at hrun
    · exact Except.noConfusion hrun
    · have hfin : RInv s.JournalEntries.length fin :=
        reconFold_rinv suggest s.Documents s.BankFeed _ fin hfold
          ⟨by simp, idsFrom_nil _⟩
      obtain rfl : _ = s' := Except.ok.inj hrun
      show ((s.JournalEntries ++ fin.newJes).map JE.je_id =
        (List.range (s.JournalEntries ++ fin.newJes).length).map
          (fun i => jeIdStr (i + 1))) ∧
        ((s.JournalEntries ++ fin.newJes).map JE.je_id).Nodup
      have hd := dense_extend hdense hfin.2
      rw [hd]
      exact ⟨rfl, dense_nodup _⟩

/-- A table whose single existing id is the dense `JE-0001`, plus one
`ready` invoice: the posting run must continue with `JE-0002`… -/
def jeSeq1 : JE :=
  { je_id := jeIdStr 1, date := "2024-12-01", doc_id := "DOC-OLD", line_no := 0,
    account := "1100 Cash/Bank", debit := 10, credit := 0, memo := "old",
    fx_rate := 1, base_amount := 10 }

def storeSeq : Store :=
  { Documents := [docNewDup],
    LineItems := [{ document_id := "DOC-NEW", line_no := 1,
                    description := "x", line_total := 100,
                    gl_hint := "5000 Consulting" }],
    JournalEntries := [jeSeq1], AP := [], AR := [], FXRates := [],
    BankFeed := [], AuditLog := [] }

def storeSeqR : Store :=
  { Documents := [], LineItems := [], JournalEntries := [jeSeq1], AP := [],
    AR := [], FXRates := [], BankFeed := [], AuditLog := [] }

/-- The reconciliation result on `storeSeqR` (empty bank feed). -/
def storeSeqRRes : Store :=
  { storeSeqR with JournalEntries := storeSeqR.JournalEntries ++ [] }

/-- Witness for `C8_je_ids_amended` on concrete dense tables. -/
theorem C8_je_ids_amended_witness :
    ((posting_run storeSeq).JournalEntries.map JE.je_id =
      (List.range (posting_run storeSeq).JournalEntries.length).map
        (fun i => jeIdStr (i + 1)) ∧
     ((posting_run storeSeq).JournalEntries.map JE.je_id).Nodup) ∧
    (storeSeqRRes.JournalEntries.map JE.je_id =
      (List.range storeSeqRRes.JournalEntries.length).map
        (fun i => jeIdStr (i + 1)) ∧
     (storeSeqRRes.JournalEntries.map JE.je_id).Nodup) := by
  obtain ⟨hpost, hrecon⟩ := C8_je_ids_amended
  exact ⟨hpost storeSeq (by decide), hrecon suggestNone storeSeqR storeSeqRRes rfl (by decide)⟩
